import Mathlib

/-!
Verification of the step1 run.log processing core of MCCE_ProtInfo
(`protinfo/log_parser.py`).

Python strings are modelled as `List Char`; the Python string methods the
module uses (`find`, `splitlines`, `split`, `rsplit(maxsplit=1)`, `strip`,
`startswith`, `endswith`, `removeprefix`, slicing) are given executable
shallow embeddings below.  Python exceptions (`KeyError`, `ValueError`,
`IndexError`) are modelled with `Except PyErr`.  Python `float` values are
modelled as exact decimals (`mant / 10 ^ exp`): every configuration value
the module reads is a short decimal literal, for which decimal parsing,
equality and the two `format` renderings (`{: .0%}` and `{:.3f}`) agree
exactly with IEEE-double behaviour.
-/

abbrev Str := List Char

def S (s : String) : Str := s.toList

/-- Single-quote character, used in `MSG_KEEP_WATS`. -/
def sqc : Char := '\x27'

/-- Python `str.isspace` on the ASCII whitespace Python strips by default. -/
def pyIsSpace (c : Char) : Bool :=
  c = ' ' || c = '\t' || c = '\n' || c = '\r' || c = '\x0b' || c = '\x0c'

/-- Python `str.lstrip()`. -/
def pyLStrip (s : Str) : Str := s.dropWhile pyIsSpace

/-- Python `str.rstrip()`. -/
def pyRStrip (s : Str) : Str := (s.reverse.dropWhile pyIsSpace).reverse

/-- Python `str.strip()`. -/
def pyStrip (s : Str) : Str := pyRStrip (pyLStrip s)

/-- Index of the first occurrence of `pat` in `text` (Python `str.find`,
returning `none` instead of -1). -/
def strFind : Str → Str → Option Nat
  | [], pat => if pat = [] then some 0 else none
  | c :: rest, pat =>
    if pat.isPrefixOf (c :: rest) then some 0
    else
      match strFind rest pat with
      | some n => some (n + 1)
      | none => none

/-- Python `pat in text` (substring containment). -/
def pyIn (pat text : Str) : Bool := (strFind text pat).isSome

/-- Python `str.startswith`. -/
def pyStartswith (p s : Str) : Bool := p.isPrefixOf s

/-- Python `str.endswith`. -/
def pyEndswith (p s : Str) : Bool := p.isSuffixOf s

/-- Python `str.removeprefix`. -/
def pyRemovePfx (p s : Str) : Str := if p.isPrefixOf s then s.drop p.length else s

/-- Helper for `pySplitlines`: split on every newline character. -/
def splitOnNl : Str → List Str
  | [] => [[]]
  | c :: rest =>
    if c = '\n' then [] :: splitOnNl rest
    else
      match splitOnNl rest with
      | [] => [[c]]
      | h :: t => (c :: h) :: t

/-- Python `str.splitlines` (run.log uses LF line terminators only). -/
def pySplitlines (s : Str) : List Str :=
  if s = [] then []
  else if s.getLast? = some '\n' then (splitOnNl s).dropLast
  else splitOnNl s

/-- Fuel-driven worker for `pySplitOn`; the fuel `s.length` is always
sufficient because every round consumes at least `sep.length ≥ 1` chars. -/
def pySplitOnAux (sep : Str) : Nat → Str → List Str
  | 0, s => [s]
  | fuel + 1, s =>
    match strFind s sep with
    | none => [s]
    | some i => s.take i :: pySplitOnAux sep fuel (s.drop (i + sep.length))

/-- Python `str.split(sep)` with a literal (nonempty) separator. -/
def pySplitOn (sep s : Str) : List Str :=
  if sep = [] then [s] else pySplitOnAux sep (s.length + 1) s

/-- Python `str.rsplit(maxsplit=1)` (split on whitespace from the right). -/
def pyRsplit1 (s : Str) : List Str :=
  let r := pyRStrip s
  if r = [] then []
  else
    let tok := (r.reverse.takeWhile (fun c => !pyIsSpace c)).reverse
    let rest := pyRStrip (r.take (r.length - tok.length))
    if rest = [] then [tok] else [rest, tok]

/-- Python `str.split(maxsplit=1)` (split on whitespace from the left). -/
def pySplit1 (s : Str) : List Str :=
  let l := pyLStrip s
  if l = [] then []
  else
    let tok := l.takeWhile (fun c => !pyIsSpace c)
    let rest := pyLStrip (l.drop tok.length)
    if rest = [] then [tok] else [tok, rest]

/-- Embedded Python exceptions raised by this module. -/
inductive PyErr where
  | keyError : Str → PyErr
  | valueError : Str → PyErr
  | indexError : PyErr
deriving DecidableEq

instance {ε α : Type} [DecidableEq ε] [DecidableEq α] : DecidableEq (Except ε α) := fun a b =>
  match a, b with
  | .error e, .error f =>
    if h : e = f then isTrue (by rw [h]) else isFalse (fun c => h (Except.error.inj c))
  | .ok x, .ok y =>
    if h : x = y then isTrue (by rw [h]) else isFalse (fun c => h (Except.ok.inj c))
  | .error _, .ok _ => isFalse (fun c => Except.noConfusion c)
  | .ok _, .error _ => isFalse (fun c => Except.noConfusion c)

def digitVal (c : Char) : Option Nat :=
  if '0' ≤ c ∧ c ≤ '9' then some (c.toNat - '0'.toNat) else none

def parseNatDigits (s : Str) : Option Nat :=
  if s = [] then none
  else
    s.foldl
      (fun acc c =>
        match acc, digitVal c with
        | some a, some d => some (a * 10 + d)
        | _, _ => none)
      (some 0)

/-- Python `int(str)` (decimal, optional sign; underscores unsupported as the
module never receives them). -/
def pyInt (s : Str) : Except PyErr Int :=
  let t := pyStrip s
  let p : Bool × Str :=
    match t with
    | '-' :: r => (true, r)
    | '+' :: r => (false, r)
    | _ => (false, t)
  match parseNatDigits p.2 with
  | some n => .ok (if p.1 then -(n : Int) else (n : Int))
  | none => .error (.valueError (S "invalid literal for int"))

/-- Exact decimal number `mant / 10 ^ exp`, the model of the Python floats
this module manipulates.  All configuration values are short decimal
literals, for which exact decimal arithmetic, equality and formatting agree
with IEEE-double behaviour. -/
structure PyFloat where
  mant : Int
  exp : Nat
deriving DecidableEq

/-- Value equality of two decimals (Python `==` on the floats). -/
def pyfEq (a b : PyFloat) : Bool :=
  a.mant * (10 : Int) ^ b.exp = b.mant * (10 : Int) ^ a.exp

/-- Python `float(str)` for plain decimal literals (the only shape the run
configuration values take). -/
def pyFloat (s : Str) : Except PyErr PyFloat :=
  let t := pyStrip s
  let p : Bool × Str :=
    match t with
    | '-' :: r => (true, r)
    | '+' :: r => (false, r)
    | _ => (false, t)
  let err : Except PyErr PyFloat := .error (.valueError (S "could not convert string to float"))
  let mk : Nat → Nat → Except PyErr PyFloat := fun m e =>
    .ok ⟨if p.1 then -(m : Int) else (m : Int), e⟩
  match pySplitOn (S ".") p.2 with
  | [a] =>
    match parseNatDigits a with
    | some n => mk n 0
    | none => err
  | [a, b] =>
    if a = [] ∧ b = [] then err
    else if (a = [] || (parseNatDigits a).isSome) && (b = [] || (parseNatDigits b).isSome) then
      mk ((parseNatDigits a).getD 0 * 10 ^ b.length + (parseNatDigits b).getD 0) b.length
    else err
  | _ => err

/-- Round `p / q` (`q > 0`) to the nearest integer, ties to even (the
rounding Python's string formatting applies; exact for the decimal values
this module formats). -/
def roundHalfEven (p q : Int) : Int :=
  let f : Int := p.fdiv q
  let r : Int := p - f * q
  if 2 * r < q then f
  else if q < 2 * r then f + 1
  else if f % 2 = 0 then f else f + 1

def natToStr (n : Nat) : Str := Nat.toDigits 10 n

/-- Python `"{: .0%}".format` of a float: percentage, zero decimals, space
flag for non-negative values. -/
def fmtSpacePercent0 (v : PyFloat) : Str :=
  let n := roundHalfEven (v.mant * 100) ((10 : Int) ^ v.exp)
  (if n < 0 then S "-" ++ natToStr n.natAbs else S " " ++ natToStr n.natAbs) ++ S "%"

/-- Python `"{:.3f}".format` of a float. -/
def fmt3f (v : PyFloat) : Str :=
  let n := roundHalfEven (v.mant * 1000) ((10 : Int) ^ v.exp)
  let a := n.natAbs
  let fp := natToStr (a % 1000)
  (if n < 0 then S "-" else []) ++ natToStr (a / 1000) ++ S "." ++
    (List.replicate (3 - fp.length) '0' ++ fp)

/-! ## Python dicts as insertion-ordered association lists -/

/-- Python `dict.get`: value at the first (unique) matching key. -/
def alGet {α : Type} (k : Str) : List (Str × α) → Option α
  | [] => none
  | (k', v) :: rest => if k' = k then some v else alGet k rest

/-- Python `dict[k] = v`: replace in place, else append (insertion order). -/
def alSet {α : Type} (k : Str) (v : α) : List (Str × α) → List (Str × α)
  | [] => [(k, v)]
  | (k', v') :: rest => if k' = k then (k, v) :: rest else (k', v') :: alSet k v rest

/-- Python `dict[k]` read access: `KeyError` when absent. -/
def pyDictGet {α : Type} (d : List (Str × α)) (k : Str) : Except PyErr α :=
  match alGet k d with
  | some v => .ok v
  | none => .error (.keyError k)

/-- Python `defaultdict(list)`-style accumulation: append `v` to the list at `k`,
creating the key at the end on first sight (insertion order). -/
def ddAppend {κ : Type} [DecidableEq κ] (k : κ) (v : Str) :
    List (κ × List Str) → List (κ × List Str)
  | [] => [(k, [v])]
  | (k', vs) :: rest =>
    if k' = k then (k', vs ++ [v]) :: rest else (k', vs) :: ddAppend k v rest

/-! ## log_parser.py: module-level helpers -/

/-- The advisory line `MSG_KEEP_WATS` (log_parser.py line 25). -/
def MSG_KEEP_WATS : Str :=
  S "NOTE: Add the " ++ [sqc] ++ S "--wet" ++ [sqc] ++
    S " option at the command line to keep waters and cofactors."

/-- Function `get_pubchem_compound_link` (log_parser.py lines 28-40); the embedded
result is the rendered `url_fstr.format(...)` string. -/
def get_pubchem_compound_link (compound_id : Str) : Str :=
  if compound_id ≠ [] then
    if pyStartswith (S "_") compound_id then
      S ":  https://pubchem.ncbi.nlm.nih.gov/#query=" ++ compound_id.drop 1 ++ S "&tab=substance"
    else
      S ":  https://pubchem.ncbi.nlm.nih.gov/#query=" ++ compound_id ++ S "&tab=substance"
  else []

/-- The shared end marker, default of `tag2` in `extract_content_between_tags`. -/
def doneTag : Str := S "   Done"

/-- Function `extract_content_between_tags` (log_parser.py lines 43-65). -/
def extract_content_between_tags (text tag1 : Str) (tag2 : Str := doneTag) : Option Str :=
  match strFind text tag1 with
  | none => none
  | some pos1 =>
    let start := pos1 + tag1.length
    match strFind (text.drop start) tag2 with
    | some q => some ((text.drop start).take q)
    | none => some (text.drop start)

/-! ## The section specification table -/

/-- Field `skip_lines` is either a tuple (drop a line when any member is a
substring of it) or a list (drop a line equal to a member). -/
inductive SkipRules where
  | tup : List Str → SkipRules
  | lst : List Str → SkipRules
deriving DecidableEq

/-- The `LogHdr` dataclass (log_parser.py lines 68-109).  The mutable `debuglog`
flag is not a field here: following the design note in the spec, the
transform step returns it explicitly instead of mutating the shared spec
(`has_debuglog` is embedded inside `phase5` below). -/
structure LogHdr where
  idx : Nat
  hdr : Str
  rpt_hdr : Str
  line_start : Option Str := none
  skip_lines : Option SkipRules := none
  get_key : Option Str := none
deriving DecidableEq, Inhabited

/-- Function `get_log1_specs` (log_parser.py lines 112-204): the fixed catalog of the
eight step1 blocks, in index order.  For blocks 5 and 7 `hdr` holds the
format template; `renderHdr` below substitutes the configuration value. -/
def get_log1_specs : List LogHdr :=
  [{ idx := 1, hdr := S "   Rename residue and atom names...",
     rpt_hdr := S "Renamed", line_start := some (S "   Renaming ") },
   { idx := 2, hdr := S "   Identify NTR and CTR...",
     rpt_hdr := S "Termini", line_start := some (S "      Labeling ") },
   { idx := 3, hdr := S "   Label backbone, sidechain and altLoc conformers...",
     rpt_hdr := S "Labeling", line_start := some (S "      Labeling "),
     skip_lines := some (.tup
       [S "Creating temporary parameter file for unrecognized",
        S "Trying labeling again",
        S "Try delete this entry and run MCCE again",
        S "Error! premcce_confname()",
        S "STOP",
        S "is already loaded somewhere else."]) },
   { idx := 4, hdr := S "   Load pdb lines into data structure...",
     rpt_hdr := S "Load Structure" },
   { idx := 5, hdr := S "   Strip free cofactors with SAS >  \x7b: .0%\x7d...",
     rpt_hdr := S "Free Cofactors",
     skip_lines := some (.tup
       [S "free cofactors were stripped off in this round",
        S "saved in debug.log."]),
     get_key := some (S "H2O_SASCUTOFF") },
   { idx := 6, hdr := S "   Check missing heavy atoms and complete altLoc conformers...",
     rpt_hdr := S "Missing Heavy Atoms",
     line_start := some (S "   Missing heavy atom  "),
     skip_lines := some (.lst [S "   Missing heavy atoms detected."]) },
   { idx := 7, hdr := S "   Find distance clash (<\x7b:.3f\x7d)...",
     rpt_hdr := S "Distance Clashes", get_key := some (S "CLASH_DISTANCE") },
   { idx := 8, hdr := S "   Make connectivity network ...",
     rpt_hdr := S "Connectivity" }]

/-- The dynamic-header rendering of `RunLog1.get_blocks` lines 336-339:
for blocks 5 and 7, `lhdr.hdr = h.format(float(self.runprm[lhdr.get_key]))`.
The two templates are fixed, so the substitution is spelled out per index. -/
def renderHdr (runprm : List (Str × Str)) (lh : LogHdr) : Except PyErr Str :=
  if lh.idx = 5 ∨ lh.idx = 7 then do
    let key ← match lh.get_key with
      | some k => Except.ok k
      | none => Except.error .indexError
    let v ← pyDictGet runprm key
    let q ← pyFloat v
    if lh.idx = 5 then
      .ok (S "   Strip free cofactors with SAS >  " ++ fmtSpacePercent0 q ++ S "...")
    else
      .ok (S "   Find distance clash (<" ++ fmt3f q ++ S ")...")
  else .ok lh.hdr

/-! ## RunLog1.process_content_block (log_parser.py lines 237-324) -/

/-- Loop state of `process_content_block`: the accumulated output, the
`loghdr.debuglog` flag (threaded explicitly instead of mutating the spec),
`newtpl` and `tpl_mismatch`.  `tpl_mismatch` is the `defaultdict(list)`
keyed by `(res, tpl_conf)`, `none` while still unset. -/
structure PCBState where
  out : List Str
  debuglog : Bool
  newtpl : Option Str
  tpl_mismatch : Option (List ((Str × Str) × List Str))
deriving DecidableEq

def tplErrPfx : Str := S "   Error! The following atoms of residue "

/-- The `loghdr.idx == 3` branch of the loop body (lines 253-268).  Returns
the updated state together with `some line` to fall through to the skip and
prefix handling, or `none` for Python's `continue`. -/
def phase3 (lh : LogHdr) (st : PCBState) (line : Str) :
    Except PyErr (PCBState × Option Str) :=
  if lh.idx ≠ 3 then .ok (st, some line)
  else if pyStartswith (S "   Error! premcce_confname()") line then
    match pyRsplit1 line with
    | [_, conf] =>
      let tpl := st.newtpl.getD [] ++ conf ++ get_pubchem_compound_link conf ++ S "; "
      .ok ({ st with newtpl := some tpl }, some line)
    | _ => .error .indexError
  else if pyStartswith tplErrPfx line then
    match pySplitOn (S " can not be loaded to conformer type ") (pyRemovePfx tplErrPfx line) with
    | [res_info, tpl_conf] =>
      match pySplit1 res_info with
      | [res, resloc] =>
        let mm := ddAppend (res, pyStrip tpl_conf) resloc (st.tpl_mismatch.getD [])
        .ok ({ st with tpl_mismatch := some mm }, none)
      | _ => .error (.valueError (S "not enough values to unpack"))
    | _ => .error (.valueError (S "values to unpack mismatch"))
  else if pyStartswith (S "           ") line ∧ st.tpl_mismatch ≠ none then
    .ok (st, none)
  else .ok (st, some line)

/-- The `loghdr.idx == 5` branch of the loop body (lines 270-279), with the
`has_debuglog` update (lines 95-109) inlined: the flag becomes true when a
line ends with `"saved in debug.log."`. -/
def phase5 (lh : LogHdr) (st : PCBState) (line : Str) :
    Except PyErr (PCBState × Option Str) :=
  if lh.idx ≠ 5 then .ok (st, some line)
  else
    let st := if !st.debuglog then
      { st with debuglog := pyEndswith (S "saved in debug.log.") line } else st
    if pyStartswith (S "   Total deleted cofactors") line then
      match pyRsplit1 line with
      | [_, tok] => do
        let n ← pyInt tok.dropLast
        if n ≠ 0 then .ok (st, some (pyStrip line)) else .ok (st, none)
      | _ => .error .indexError
    else .ok (st, some line)

/-- Skip-rule test (lines 281-290): substring match for a tuple,
exact-line match for a list. -/
def skipMatch (sk : Option SkipRules) (line : Str) : Bool :=
  match sk with
  | none => false
  | some (.tup ts) => ts.any (fun t => pyIn t line)
  | some (.lst ls) => ls.any (fun l => l = line)

/-- Prefix stripping (lines 292-295). -/
def applyChange (ls : Option Str) (line : Str) : Str :=
  match ls with
  | none => line
  | some p => if pyStartswith p line then pyRemovePfx p line else line

/-- One iteration of the `for line in content` loop (lines 249-297). -/
def pcbLine (lh : LogHdr) (st : PCBState) (line : Str) : Except PyErr PCBState :=
  if line = [] then .ok st
  else do
    match ← phase3 lh st line with
    | (st, none) => .ok st
    | (st, some line) =>
      match ← phase5 lh st line with
      | (st, none) => .ok st
      | (st, some line) =>
        if skipMatch lh.skip_lines line then .ok st
        else .ok { st with out := st.out ++ [applyChange lh.line_start line] }

def pcbLoop (lh : LogHdr) : PCBState → List Str → Except PyErr PCBState
  | st, [] => .ok st
  | st, l :: rest => do pcbLoop lh (← pcbLine lh st l) rest

/-- The post-loop additions (lines 299-322): the `--wet` advisory for a dry
run on block 5, and the new-topology / unloadable-topology synthesis for
block 3.  `pathKeys` models the `get_path_keys(self.pdb)` dict (io_utils.py),
read only in the mismatch branch; the code asks it for `"renaming file"` and
`"topologies"`. -/
def pcbPost (dry_opt : Bool) (pathKeys : List (Str × Str)) (lh : LogHdr) (st : PCBState) :
    Except PyErr (List Str × Bool) :=
  let out := if lh.idx = 5 ∧ dry_opt then MSG_KEEP_WATS :: st.out else st.out
  if lh.idx = 3 then
    let out :=
      match st.newtpl with
      | some tpl => if tpl ≠ [] then out ++ [S "Generic topology file created for", tpl] else out
      | none => out
    match st.tpl_mismatch with
    | some mm =>
      if mm ≠ [] then do
        let msg := mm.foldl
          (fun acc kv =>
            acc ++ S "Atoms of residue " ++ kv.1.1 ++ S " (" ++
              (S ", ").intercalate kv.2 ++ S "), do not match the topology conformer " ++
              kv.1.2 ++ S ".\n")
          []
        let rn ← pyDictGet pathKeys (S "renaming file")
        let tp ← pyDictGet pathKeys (S "topologies")
        let msg := msg ++ S " Likely cause: the renaming file (path: " ++ rn ++
          S ") is missing entries for these species, resulting in unloadable" ++
          S " topology files (path: " ++ tp ++ S "/)."
        .ok (out ++ [S "Unloadable topology", msg], st.debuglog)
      else .ok (out, st.debuglog)
    | none => .ok (out, st.debuglog)
  else .ok (out, st.debuglog)

/-- Method `RunLog1.process_content_block` (lines 237-324): returns the processed
lines and the block's debug-log flag. -/
def process_content_block (dry_opt : Bool) (pathKeys : List (Str × Str))
    (content : List Str) (lh : LogHdr) : Except PyErr (List Str × Bool) := do
  let init : PCBState := ⟨[], false, if lh.idx = 3 then some [] else none, none⟩
  pcbPost dry_opt pathKeys lh (← pcbLoop lh init content)

/-! ## RunLog1.get_blocks (log_parser.py lines 326-383) -/

/-- A value of the report mapping: a plain list of lines, or — for the
regrouped Termini section only — a list of `(category, locators)` pairs. -/
inductive BVal where
  | lines : List Str → BVal
  | pairs : List (Str × List Str) → BVal
deriving DecidableEq

/-- Lexicographic `≤` on strings by code point (Python string ordering). -/
def strLe : Str → Str → Bool
  | [], _ => true
  | _ :: _, [] => false
  | a :: as, b :: bs => if a < b then true else if a = b then strLe as bs else false

def strInsert (x : Str) : List Str → List Str
  | [] => [x]
  | y :: ys => if strLe x y then x :: y :: ys else y :: strInsert x ys

/-- Python `sorted` on a list of strings (stable; block 1 only). -/
def pySorted : List Str → List Str
  | [] => []
  | x :: xs => strInsert x (pySorted xs)

/-- State of the `for k in self.blocks_specs` loop: the mapping built so
far, and the `blocks_specs[5].debuglog` flag (mutated on the spec object in
the Python, threaded here). -/
structure BState where
  blocks : List (Str × BVal)
  debug5 : Bool
deriving DecidableEq

/-- One iteration of the block loop (lines 333-352): render the (possibly
dynamic) header, extract the content, split it into lines, sort block 1,
run `process_content_block` when the block has transform rules, and store
the non-blank lines under the report heading. -/
def blockStep (runprm pathKeys : List (Str × Str)) (dry_opt : Bool) (text : Str)
    (st : BState) (lh : LogHdr) : Except PyErr BState := do
  let h ← renderHdr runprm lh
  match extract_content_between_tags text h doneTag with
  | none => .ok st
  | some content =>
    let ls := pySplitlines content
    let ls := if lh.idx = 1 then pySorted ls else ls
    let pr ←
      if lh.line_start ≠ none ∨ lh.skip_lines ≠ none then
        process_content_block dry_opt pathKeys ls lh
      else .ok (ls, false)
    let st := if lh.idx = 5 then { st with debug5 := pr.2 } else st
    let b := alSet lh.rpt_hdr (BVal.lines (pr.1.filter (fun l => pyStrip l ≠ []))) st.blocks
    .ok { st with blocks := b }

def blocksLoop (runprm pathKeys : List (Str × Str)) (dry_opt : Bool) (text : Str) :
    BState → List LogHdr → Except PyErr BState
  | st, [] => .ok st
  | st, lh :: rest => do
    blocksLoop runprm pathKeys dry_opt text (← blockStep runprm pathKeys dry_opt text st lh) rest

/-- The success continuation of `blockStep` (the compiled join point of its
do-block): store the blank-filtered processed lines under the heading and,
for block 5, record the debug-log flag. -/
def blockStepStore (st : BState) (lh : LogHdr) (pr : List Str × Bool) :
    Except PyErr BState :=
  let st2 := if lh.idx = 5 then { st with debug5 := pr.2 } else st
  let b := alSet lh.rpt_hdr (BVal.lines (pr.1.filter (fun l => pyStrip l ≠ []))) st2.blocks
  .ok { st2 with blocks := b }

/-- The termini-regrouping loop body (lines 358-361): find the quote closing
the locator starting the search at index 3 (`ValueError` when absent), and
group `line[:i]` under the 3-character category code `line[-3:]`. -/
def terminiGroupLoop : List (Str × List Str) → List Str → Except PyErr (List (Str × List Str))
  | acc, [] => .ok acc
  | acc, line :: rest =>
    match strFind (line.drop 3) (S "\x22") with
    | none => .error (.valueError (S "substring not found"))
    | some j =>
      terminiGroupLoop (ddAppend (line.drop (line.length - 3)) (line.take (3 + j + 1)) acc) rest

/-- Termini post-processing (lines 354-364). -/
def postTermini (b : List (Str × BVal)) : Except PyErr (List (Str × BVal)) :=
  match alGet (S "Termini") b with
  | none => .ok b
  | some (BVal.lines ls) =>
    if ls ≠ [] then do
      .ok (alSet (S "Termini") (BVal.pairs (← terminiGroupLoop [] ls)) b)
    else .ok b
  | some (BVal.pairs _) => .ok b

/-- Debug-log enrichment (lines 366-370): when block 5 flagged debug.log,
append one line per species to the Free Cofactors entry (a `KeyError` if the
key were absent — it cannot be, the flag is only set while processing block
5).  `debugSpecies` models the lines of `get_debuglog_species()`, which
reads the external debug.log file. -/
def postDebug (debugSpecies : List Str) (debug5 : Bool) (b : List (Str × BVal)) :
    Except PyErr (List (Str × BVal)) :=
  if debug5 then
    match alGet (S "Free Cofactors") b with
    | some (BVal.lines ls) =>
      .ok (alSet (S "Free Cofactors") (BVal.lines (ls ++ debugSpecies)) b)
    | some (BVal.pairs _) => .error (.valueError (S "not a line list"))
    | none => .error (.keyError (S "Free Cofactors"))
  else .ok b

/-- Distance-clash collapsing (lines 372-381). -/
def postClashes (b : List (Str × BVal)) : List (Str × BVal) :=
  match alGet (S "Distance Clashes") b with
  | some (BVal.lines ls) =>
    if ls ≠ [] then
      alSet (S "Distance Clashes")
        (BVal.lines (S "Clashes found" :: (ls.map pyStrip ++ [S "end_clash"]))) b
    else b
  | _ => b

/-- Method `RunLog1.get_blocks` (lines 326-383).  `text` is the run.log contents;
`dry_opt` is `self.dry_opt` computed in `__init__`. -/
def get_blocks (runprm pathKeys : List (Str × Str)) (debugSpecies : List Str)
    (dry_opt : Bool) (text : Str) : Except PyErr (List (Str × BVal)) := do
  let st ← blocksLoop runprm pathKeys dry_opt text ⟨[], false⟩ get_log1_specs
  let b ← postTermini st.blocks
  let b ← postDebug debugSpecies st.debug5 b
  .ok (postClashes b)

/-- The flag `self.dry_opt = float(self.runprm["H2O_SASCUTOFF"]) == -0.01`
(`RunLog1.__init__`, line 217). -/
def dryOpt (runprm : List (Str × Str)) : Except PyErr Bool := do
  let v ← pyDictGet runprm (S "H2O_SASCUTOFF")
  let q ← pyFloat v
  .ok (pyfEq q ⟨-1, 2⟩)

/-- Full `RunLog1` construction followed by `get_blocks`: `__init__` computes
`dry_opt` (lines 212-221) and then extracts the blocks. -/
def runlog1 (runprm pathKeys : List (Str × Str)) (debugSpecies : List Str)
    (text : Str) : Except PyErr (List (Str × BVal)) := do
  get_blocks runprm pathKeys debugSpecies (← dryOpt runprm) text

/-! ## filter_heavy_atm_section (log_parser.py lines 386-415) -/

/-- The nested report mapping `{pdb.stem: {"MCCE.Step1": {heading: value}}}`. -/
abbrev Step1D := List (Str × BVal)
abbrev SectD := List (Str × Step1D)
abbrev InfoD := List (Str × SectD)

/-- The `for line in heavy` loop (lines 405-410).  Each line is split on
`" in "` into `conf, res` (a `ValueError` unless exactly two parts) and the
last whitespace token of `conf` is tested for the `BK` suffix (an
`IndexError` when `conf` has fewer than two tokens).  The Python guard is
`is_bkb and (res in T[1] for T in termi)`; its right operand is a generator
object, which is always truthy, so the conjunction reduces to `is_bkb`
alone and `termi` is never consulted. -/
def heavyLoop : List Str → List Str → Except PyErr (List Str)
  | acc, [] => .ok acc
  | acc, line :: rest =>
    match pySplitOn (S " in ") line with
    | [conf, _res] =>
      match pyRsplit1 conf with
      | [_, tok] =>
        if pyEndswith (S "BK") tok then heavyLoop acc rest
        else heavyLoop (acc ++ [line]) rest
      | _ => .error .indexError
    | _ => .error (.valueError (S "values to unpack"))

/-- Function `filter_heavy_atm_section` (lines 386-415).  `stem` is `pdb.stem`. -/
def filter_heavy_atm_section (stem : Str) (d : InfoD) : Except PyErr InfoD := do
  let sect ← pyDictGet d stem
  let step1 ← pyDictGet sect (S "MCCE.Step1")
  match alGet (S "Missing Heavy Atoms") step1 with
  | none => .ok d
  | some hv =>
    match alGet (S "Termini") step1 with
    | none => .ok d
    | some _ => do
      let hlines ←
        match hv with
        | BVal.lines ls => Except.ok ls
        | BVal.pairs _ => Except.error (.valueError (S "not a line list"))
      let hlines := if hlines.length > 1 then hlines.dropLast else hlines
      let hvy ← heavyLoop [] hlines
      .ok (alSet stem
        (alSet (S "MCCE.Step1") (alSet (S "Missing Heavy Atoms") (BVal.lines hvy) step1) sect) d)

/-! ## Spec-side reference definitions

The following definitions are written from the specification's words, not
from the code; they exist to be compared with the embedded code above. -/

/-- Parse a heavy-atom report line `"<conformer> in <locator>"`; `some b`
with `b` the is-backbone bit when the line has the expected shape. -/
def parseHeavy (line : Str) : Option Bool :=
  match pySplitOn (S " in ") line with
  | [conf, _res] =>
    match pyRsplit1 conf with
    | [_, tok] => some (pyEndswith (S "BK") tok)
    | _ => none
  | _ => none

/-- The locator of a heavy-atom report line, when well-shaped. -/
def heavyLoc (line : Str) : Option Str :=
  match pySplitOn (S " in ") line with
  | [_conf, res] => some res
  | _ => none

/-- Spec reading of the heavy-atom filter ("Heavy-atom filtering", spec
sections 4.3 and 8): keep a line unless it is a backbone entry whose
locator equals one of the recorded terminus locators; then, if more than
one entry remains afterward, drop the (post-filtering) last entry. -/
def spec_heavy_keep (termi : List (Str × List Str)) (line : Str) : Bool :=
  !((parseHeavy line).getD false &&
    termi.any (fun T => T.2.any (fun r => (heavyLoc line) = some r)))

def spec_filter_heavy (termi : List (Str × List Str)) (heavy : List Str) : List Str :=
  let f := heavy.filter (spec_heavy_keep termi)
  if f.length > 1 then f.dropLast else f

/-- Spec reading of the generic per-block cleanup (spec section 8, first
property): the block lines minus skip-rule matches, prefix-stripped, with
blank lines dropped. -/
def specCleanedLines (skips : List Str) (pfx : Option Str) (ls : List Str) : List Str :=
  ((ls.filter (fun l => !skipMatch (some (.lst skips)) l)).map (applyChange pfx)).filter
    (fun l => pyStrip l ≠ [])

/-- Relation between the block mappings of a wet run (`dry_opt = false`,
`bf`) and a dry run (`dry_opt = true`, `bt`) of the same log: they agree
except that the dry run's Free Cofactors entry carries the `--wet` advisory
line prepended. -/
def fcRel (bf bt : List (Str × BVal)) : Prop :=
  (bt = bf ∧ alGet (S "Free Cofactors") bf = none) ∨
  (∃ ls, alGet (S "Free Cofactors") bf = some (BVal.lines ls) ∧
    bt = alSet (S "Free Cofactors") (BVal.lines (MSG_KEEP_WATS :: ls)) bf)

/-! ## Concrete inputs used by the scenario theorems and witnesses -/

/-- A well-formed run configuration holding both dynamic-marker keys. -/
def stdPrm : List (Str × Str) := [(S "H2O_SASCUTOFF", S "0.05"), (S "CLASH_DISTANCE", S "2.000")]

def C8text : Str :=
  S "Preamble\n   Strip free cofactors with SAS >   5%...\n   Total deleted cofactors: 0.\n   Done\n"

def C9text : Str :=
  S "   Label backbone, sidechain and altLoc conformers...\n      Labeling HETATM group\n   Error! premcce_confname() FAILED for _ABC\n   Done\n"

def C9entry : Str := S "_ABC:  https://pubchem.ncbi.nlm.nih.gov/#query=ABC&tab=substance; "

def C5text : Str := S "   Identify NTR and CTR...\n      Labeling ABC as NTR\n   Done\n"

def C2text : Str := S "   Find distance clash (<2.000)...\n   d= 1.58: A123 to B456\n   Done\n"

def C1info : InfoD :=
  [(S "p", [(S "MCCE.Step1",
    [(S "Termini", BVal.pairs [(S "NTR", [S "L1"])]),
     (S "Missing Heavy Atoms", BVal.lines [S "CB ALABK in L2"])])])]

def C1info' : InfoD :=
  [(S "p", [(S "MCCE.Step1",
    [(S "Termini", BVal.pairs [(S "NTR", [S "L1"])]),
     (S "Missing Heavy Atoms", BVal.lines [])])])]

def C6info : InfoD :=
  [(S "p", [(S "MCCE.Step1",
    [(S "Termini", BVal.pairs [(S "NTR", [S "L1"])]),
     (S "Missing Heavy Atoms", BVal.lines [S "C1 BK in L1", S "C2 CA in L2"])])])]

def C6info' : InfoD :=
  [(S "p", [(S "MCCE.Step1",
    [(S "Termini", BVal.pairs [(S "NTR", [S "L1"])]),
     (S "Missing Heavy Atoms", BVal.lines [])])])]

instance : DecidableEq Step1D := fun a b => instDecidableEqList a b

instance : DecidableEq SectD := fun a b => instDecidableEqList a b

instance : DecidableEq InfoD := fun a b => instDecidableEqList a b

/-- Decidable statement that a block's marker renders successfully and does
not occur in `text`. -/
def markerAbsentB (runprm : List (Str × Str)) (text : Str) (lh : LogHdr) : Bool :=
  match renderHdr runprm lh with
  | .ok h => (strFind text h).isNone
  | .error _ => false

/-- Block 6 of the catalog (Missing Heavy Atoms). -/
def spec6 : LogHdr := get_log1_specs.getD 5 default

/-- The body used by the witness of the generic-block extraction theorem. -/
def C2wmid : Str :=
  S "\n   Missing heavy atom   CB of GLU in \"A0123\".\n   Missing heavy atoms detected.\n"

def C2wtext : Str := spec6.hdr ++ C2wmid ++ doneTag ++ S "\n"

def C4prmA : List (Str × Str) := [(S "CLASH_DISTANCE", S "2.000")]

def C4prmB : List (Str × Str) := [(S "H2O_SASCUTOFF", S "0.05")]

def C5wtext : Str := S "a log with no section markers at all"

def C7text : Str :=
  S "   Strip free cofactors with SAS >   5%...\n   Total deleted cofactors: 3.\n   Done\n"

def C10info : InfoD :=
  [(S "p", [(S "MCCE.Step1",
    [(S "Missing Heavy Atoms", BVal.lines [S "C1 BK in L1"])])]),
   (S "q", [(S "Other", [])])]

/-! ## Claim theorems -/

/-- C1: the claim states that `filter_heavy_atm_section` removes exactly the
backbone entries whose locator matches a recorded terminus locator.  The
code disagrees: the guard `is_bkb and (res in T[1] for T in termi)` has a
generator object as right operand, which is always truthy, so every
backbone entry is removed.  Here the single entry `"CB ALABK in L2"` is
backbone but its locator `L2` matches no terminus locator (`L1` only): the
code deletes it while the specified filter (`spec_filter_heavy`, following
the spec's and the function's own docstring's words) retains it. -/
theorem C1_backbone_filter_code_bug :
    filter_heavy_atm_section (S "p") C1info = .ok C1info' ∧
    spec_filter_heavy [(S "NTR", [S "L1"])] [S "CB ALABK in L2"] = [S "CB ALABK in L2"] :=
  ⟨by decide, by decide⟩

/-- C8: with configuration `stdPrm` and log `C8text`, the rendered dynamic
marker of block 5 equals the log's marker byte-for-byte, the resulting
Free Cofactors content list is empty (the zero-count summary line is
suppressed), and the block's debug-log flag remains false. -/
theorem C8_cofactor_scenario :
    renderHdr stdPrm (get_log1_specs.getD 4 default) =
      .ok (S "   Strip free cofactors with SAS >   5%...") ∧
    pyIn (S "   Strip free cofactors with SAS >   5%...") C8text = true ∧
    blocksLoop stdPrm [] false C8text ⟨[], false⟩ get_log1_specs =
      .ok ⟨[(S "Free Cofactors", BVal.lines [])], false⟩ ∧
    runlog1 stdPrm [] [] C8text = .ok [(S "Free Cofactors", BVal.lines [])] :=
  ⟨by decide, by decide, by decide, by decide⟩

set_option maxRecDepth 100000 in
/-- C9: a conformer-labeling block containing
`"   Error! premcce_confname() FAILED for _ABC"` produces a synthesized
`Generic topology file created for` entry placed after all other retained
lines, whose text carries the token `ABC` (the leading underscore is
stripped inside the appended PubChem lookup link), and the raw error line
itself does not appear in the output. -/
theorem C9_premcce_scenario :
    runlog1 stdPrm [] [] C9text =
      .ok [(S "Labeling", BVal.lines
        [S "HETATM group", S "Generic topology file created for", C9entry])] ∧
    pyIn (S "ABC") C9entry = true ∧
    pyIn (S "https://pubchem.ncbi.nlm.nih.gov/#query=ABC&tab=substance") C9entry = true ∧
    S "   Error! premcce_confname() FAILED for _ABC" ∉
      [S "HETATM group", S "Generic topology file created for", C9entry] :=
  ⟨by decide, by decide, by decide, by decide⟩

/-- C2 counterexample: the claim predicts that every present block's heading
maps to exactly the non-blank, skip-filtered, prefix-stripped lines strictly
between the markers.  For the distance-clash block (which has no skip rules
and no prefix) the code instead wraps the content in `Clashes found` /
`end_clash` sentinel lines, so the mapping differs from the claim's
prediction (`specCleanedLines` of the between-marker lines). -/
theorem C2_clash_block_not_cleaned :
    runlog1 stdPrm [] [] C2text =
      .ok [(S "Distance Clashes",
        BVal.lines [S "Clashes found", S "d= 1.58: A123 to B456", S "end_clash"])] ∧
    specCleanedLines [] none (pySplitlines (S "\n   d= 1.58: A123 to B456\n")) =
      [S "   d= 1.58: A123 to B456"] ∧
    BVal.lines [S "Clashes found", S "d= 1.58: A123 to B456", S "end_clash"] ≠
      BVal.lines [S "   d= 1.58: A123 to B456"] :=
  ⟨by decide, by decide, by decide⟩

/-- C5 counterexample: both dynamic-marker keys are present, yet extraction
raises: the retained Termini line `"ABC as NTR"` contains no double-quote
character, so the termini regrouping's `line.index` lookup fails with an
uncaught `ValueError` and no report mapping is produced. -/
theorem C5_malformed_termini_raises :
    alGet (S "H2O_SASCUTOFF") stdPrm = some (S "0.05") ∧
    alGet (S "CLASH_DISTANCE") stdPrm = some (S "2.000") ∧
    runlog1 stdPrm [] [] C5text = .error (.valueError (S "substring not found")) :=
  ⟨by decide, by decide, by decide⟩

/-- C6 counterexample: the claim predicts drop-last happens after the
backbone/terminus filtering and only when more than one entry remains then.
On `C6info` (two entries, `"C1 BK in L1"` removed by the filter under either
reading of the guard since `L1` is a recorded terminus locator) the
post-filter list has one entry, so the claim predicts `["C2 CA in L2"]`
(`spec_filter_heavy`); the code instead pops `"C2 CA in L2"` first — the
pre-filter last entry — and returns the empty list. -/
theorem C6_pop_order_counterexample :
    filter_heavy_atm_section (S "p") C6info = .ok C6info' ∧
    spec_filter_heavy [(S "NTR", [S "L1"])] [S "C1 BK in L1", S "C2 CA in L2"] =
      [S "C2 CA in L2"] ∧
    BVal.lines [] ≠ BVal.lines [S "C2 CA in L2"] :=
  ⟨by decide, by decide, by decide⟩

/-! ## Association-list lemmas -/

theorem alGet_alSet_self {α : Type} (k : Str) (v : α) (l : List (Str × α)) :
    alGet k (alSet k v l) = some v := by
  induction l with
  | nil => simp [alGet, alSet]
  | cons hd t ih =>
    obtain ⟨k', v'⟩ := hd
    by_cases hk : k' = k <;> simp [alGet, alSet, hk, ih]

theorem alGet_alSet_ne {α : Type} {k k' : Str} (h : k' ≠ k) (v : α) (l : List (Str × α)) :
    alGet k (alSet k' v l) = alGet k l := by
  induction l with
  | nil => simp [alGet, alSet, h]
  | cons hd t ih =>
    obtain ⟨k'', v''⟩ := hd
    by_cases hk : k'' = k' <;> by_cases hk2 : k'' = k <;>
      simp_all [alGet, alSet]

theorem alSet_comm_of_mem {α : Type} {k k' : Str} (h : k ≠ k') {l : List (Str × α)}
    (hm : alGet k' l ≠ none) (v w : α) :
    alSet k v (alSet k' w l) = alSet k' w (alSet k v l) := by
  induction l with
  | nil => simp [alGet] at hm
  | cons hd t ih =>
    obtain ⟨k'', v''⟩ := hd
    by_cases hk : k'' = k' <;> by_cases hk2 : k'' = k
    · exact absurd (hk2.symm.trans hk) h
    · subst hk
      simp [alSet, Ne.symm h, h]
    · subst hk2
      simp only [alGet, if_neg hk] at hm
      simp [alSet, hk, h, Ne.symm h]
    · simp only [alGet, if_neg hk] at hm
      simp [alSet, hk, hk2, ih hm]

theorem alSet_alSet_self {α : Type} (k : Str) (v w : α) (l : List (Str × α)) :
    alSet k v (alSet k w l) = alSet k v l := by
  induction l with
  | nil => simp [alSet]
  | cons hd t ih =>
    obtain ⟨k'', v''⟩ := hd
    by_cases hk : k'' = k <;> simp_all [alSet]

/-! ## Block-loop lemmas -/

theorem blocksLoop_nil (r p : List (Str × Str)) (dry : Bool) (text : Str) (st : BState) :
    blocksLoop r p dry text st [] = .ok st := rfl

theorem blocksLoop_cons (r p : List (Str × Str)) (dry : Bool) (text : Str) (st : BState)
    (lh : LogHdr) (rest : List LogHdr) :
    blocksLoop r p dry text st (lh :: rest) =
      (blockStep r p dry text st lh).bind (fun st' => blocksLoop r p dry text st' rest) := rfl

theorem blocksLoop_cons_ok {r p : List (Str × Str)} {dry : Bool} {text : Str} {st : BState}
    {lh : LogHdr} {rest : List LogHdr} {out : BState} :
    blocksLoop r p dry text st (lh :: rest) = .ok out ↔
      ∃ st', blockStep r p dry text st lh = .ok st' ∧
        blocksLoop r p dry text st' rest = .ok out := by
  rw [blocksLoop_cons]
  cases h : blockStep r p dry text st lh <;> simp [Except.bind]

theorem blocksLoop_append {r p : List (Str × Str)} {dry : Bool} {text : Str}
    (a b : List LogHdr) (st : BState) :
    blocksLoop r p dry text st (a ++ b) =
      (blocksLoop r p dry text st a).bind (fun st' => blocksLoop r p dry text st' b) := by
  induction a generalizing st with
  | nil => rfl
  | cons lh t ih =>
    rw [List.cons_append, blocksLoop_cons, blocksLoop_cons]
    cases h : blockStep r p dry text st lh <;> simp [Except.bind, ih]

/-- Lemma: `blockStep` with the do-notation spelled out as explicit binds. -/
theorem blockStep_eq (r p : List (Str × Str)) (dry : Bool) (text : Str) (st : BState)
    (lh : LogHdr) :
    blockStep r p dry text st lh =
      (renderHdr r lh).bind (fun h =>
        match extract_content_between_tags text h doneTag with
        | none => .ok st
        | some content =>
          let ls := pySplitlines content
          let ls := if lh.idx = 1 then pySorted ls else ls
          if lh.line_start ≠ none ∨ lh.skip_lines ≠ none then
            (process_content_block dry p ls lh).bind (blockStepStore st lh)
          else blockStepStore st lh (ls, false)) := rfl

theorem blockStep_absent {r p : List (Str × Str)} {dry : Bool} {text : Str} {st : BState}
    {lh : LogHdr} {h : Str} (hr : renderHdr r lh = .ok h)
    (hf : strFind text h = none) : blockStep r p dry text st lh = .ok st := by
  rw [blockStep_eq, hr]
  show (match extract_content_between_tags text h doneTag with
    | none => Except.ok st
    | some _ => _) = Except.ok st
  rw [show extract_content_between_tags text h doneTag = none by
    unfold extract_content_between_tags; rw [hf]]

theorem blockStepStore_preserve {st st' : BState} {lh : LogHdr} {pr : List Str × Bool}
    (K : Str) (hne : lh.rpt_hdr ≠ K) (hstore : blockStepStore st lh pr = .ok st') :
    alGet K st'.blocks = alGet K st.blocks := by
  unfold blockStepStore at hstore
  cases hstore
  by_cases h5 : lh.idx = 5 <;> simp [h5, alGet_alSet_ne hne]

theorem blockStep_preserve {r p : List (Str × Str)} {dry : Bool} {text : Str}
    {st st' : BState} {lh : LogHdr} (K : Str) (hne : lh.rpt_hdr ≠ K)
    (hstep : blockStep r p dry text st lh = .ok st') :
    alGet K st'.blocks = alGet K st.blocks := by
  rw [blockStep_eq] at hstep
  cases hr : renderHdr r lh with
  | error e => rw [hr] at hstep; exact absurd hstep (by simp [Except.bind])
  | ok h =>
    rw [hr] at hstep
    simp only [Except.bind] at hstep
    cases hx : extract_content_between_tags text h doneTag with
    | none =>
      rw [hx] at hstep
      cases hstep
      rfl
    | some content =>
      rw [hx] at hstep
      simp only at hstep
      by_cases hc : lh.line_start ≠ none ∨ lh.skip_lines ≠ none
      · rw [if_pos hc] at hstep
        cases hp : process_content_block dry p
            (if lh.idx = 1 then pySorted (pySplitlines content) else pySplitlines content) lh with
        | error e => rw [hp] at hstep; exact absurd hstep (by simp [Except.bind])
        | ok pr =>
          rw [hp] at hstep
          simp only [Except.bind] at hstep
          exact blockStepStore_preserve K hne hstep
      · rw [if_neg hc] at hstep
        exact blockStepStore_preserve K hne hstep

theorem blockStep_render_error {r p : List (Str × Str)} {dry : Bool} {text : Str}
    {st : BState} {lh : LogHdr} {e : PyErr} (hr : renderHdr r lh = .error e) :
    blockStep r p dry text st lh = .error e := by
  rw [blockStep_eq, hr]; rfl

theorem blocksLoop_cons_error {r p : List (Str × Str)} {dry : Bool} {text : Str}
    {st : BState} {lh : LogHdr} {rest : List LogHdr} {e : PyErr}
    (hstep : blockStep r p dry text st lh = .error e) :
    blocksLoop r p dry text st (lh :: rest) = .error e := by
  rw [blocksLoop_cons, hstep]; rfl

theorem blocksLoop_none_preserve {r p : List (Str × Str)} {dry : Bool} {text : Str} {K : Str}
    (specs : List LogHdr) :
    ∀ st st' : BState,
      blocksLoop r p dry text st specs = .ok st' →
      (∀ lh ∈ specs, lh.rpt_hdr = K →
        ∃ h, renderHdr r lh = .ok h ∧ strFind text h = none) →
      alGet K st.blocks = none → alGet K st'.blocks = none := by
  induction specs with
  | nil =>
    intro st st' hloop _ hnone
    rw [blocksLoop_nil] at hloop
    cases hloop
    exact hnone
  | cons lh rest ih =>
    intro st st' hloop habs hnone
    obtain ⟨st1, hstep, hrest⟩ := blocksLoop_cons_ok.mp hloop
    by_cases hk : lh.rpt_hdr = K
    · obtain ⟨h, hr, hf⟩ := habs lh (by simp) hk
      have hid : blockStep r p dry text st lh = .ok st := blockStep_absent hr hf
      rw [hid] at hstep
      cases hstep
      exact ih st st' hrest (fun lh' hm hk' => habs lh' (by simp [hm]) hk') hnone
    · have : alGet K st1.blocks = alGet K st.blocks := blockStep_preserve K hk hstep
      exact ih st1 st' hrest (fun lh' hm hk' => habs lh' (by simp [hm]) hk') (this.trans hnone)

/-! ## Post-processing lemmas -/

theorem postTermini_none {b b' : List (Str × BVal)} (h : postTermini b = .ok b')
    (hn : alGet (S "Termini") b = none) : b' = b := by
  unfold postTermini at h
  rw [hn] at h
  cases h
  rfl

theorem postTermini_preserve {b b' : List (Str × BVal)} (K : Str) (hne : K ≠ S "Termini")
    (h : postTermini b = .ok b') : alGet K b' = alGet K b := by
  unfold postTermini at h
  cases ht : alGet (S "Termini") b with
  | none => rw [ht] at h; cases h; rfl
  | some v =>
    rw [ht] at h
    cases v with
    | pairs ps => cases h; rfl
    | lines ls =>
      dsimp only at h
      by_cases hl : ls ≠ []
      · rw [if_pos hl] at h
        cases hg : terminiGroupLoop [] ls with
        | error e => rw [hg] at h; cases h
        | ok g =>
          rw [hg] at h
          cases h
          exact alGet_alSet_ne (Ne.symm hne) _ _
      · rw [if_neg hl] at h; cases h; rfl

theorem postTermini_none_preserve {b b' : List (Str × BVal)} {K : Str}
    (h : postTermini b = .ok b') (hn : alGet K b = none) : alGet K b' = none := by
  by_cases hk : K = S "Termini"
  · subst hk; rw [postTermini_none h hn]; exact hn
  · rw [postTermini_preserve K hk h]; exact hn

theorem postDebug_false (ds : List Str) (b : List (Str × BVal)) :
    postDebug ds false b = .ok b := rfl

theorem postDebug_preserve {ds : List Str} {f : Bool} {b b' : List (Str × BVal)} (K : Str)
    (hne : K ≠ S "Free Cofactors") (h : postDebug ds f b = .ok b') :
    alGet K b' = alGet K b := by
  unfold postDebug at h
  cases f with
  | false => cases h; rfl
  | true =>
    rw [if_pos rfl] at h
    cases hf : alGet (S "Free Cofactors") b with
    | none => rw [hf] at h; cases h
    | some v =>
      rw [hf] at h
      cases v with
      | pairs ps => cases h
      | lines ls =>
        cases h
        exact alGet_alSet_ne (Ne.symm hne) _ _

theorem postDebug_none_preserve {ds : List Str} {f : Bool} {b b' : List (Str × BVal)} {K : Str}
    (h : postDebug ds f b = .ok b') (hn : alGet K b = none) : alGet K b' = none := by
  by_cases hk : K = S "Free Cofactors"
  · subst hk
    unfold postDebug at h
    cases f with
    | false => cases h; exact hn
    | true => rw [if_pos rfl] at h; rw [hn] at h; cases h
  · rw [postDebug_preserve K hk h]; exact hn

theorem postClashes_preserve (b : List (Str × BVal)) (K : Str)
    (hne : K ≠ S "Distance Clashes") : alGet K (postClashes b) = alGet K b := by
  unfold postClashes
  cases hd : alGet (S "Distance Clashes") b with
  | none => rfl
  | some v =>
    cases v with
    | pairs ps => rfl
    | lines ls =>
      dsimp only
      by_cases hl : ls ≠ []
      · rw [if_pos hl]; exact alGet_alSet_ne (Ne.symm hne) _ _
      · rw [if_neg hl]

theorem postClashes_none_preserve {b : List (Str × BVal)} {K : Str}
    (hn : alGet K b = none) : alGet K (postClashes b) = none := by
  by_cases hk : K = S "Distance Clashes"
  · subst hk
    unfold postClashes
    rw [hn]
    exact hn
  · rw [postClashes_preserve b K hk]; exact hn

/-- Lemma: `get_blocks` with the do-notation spelled out as explicit binds. -/
theorem get_blocks_eq (r p : List (Str × Str)) (ds : List Str) (dry : Bool) (text : Str) :
    get_blocks r p ds dry text =
      (blocksLoop r p dry text ⟨[], false⟩ get_log1_specs).bind (fun st =>
        (postTermini st.blocks).bind (fun b =>
          (postDebug ds st.debug5 b).bind (fun b2 => .ok (postClashes b2)))) := rfl

/-- Lemma: `runlog1` with the do-notation spelled out. -/
theorem runlog1_eq (r p : List (Str × Str)) (ds : List Str) (text : Str) :
    runlog1 r p ds text = (dryOpt r).bind (fun dry => get_blocks r p ds dry text) := rfl

theorem get_log1_specs_rpt_hdr_inj :
    ∀ a ∈ get_log1_specs, ∀ b ∈ get_log1_specs, a.rpt_hdr = b.rpt_hdr → a = b := by decide

set_option maxRecDepth 4000 in
/-- C3: for every log text in which a given block's (rendered) start marker
does not occur, the mapping returned by `get_blocks` contains no key for
that block's report heading — the heading is entirely absent, not present
with an empty list — while the remaining blocks were still processed
(`get_blocks` returned a mapping). -/
theorem C3_absent_marker_absent_heading
    (runprm pathKeys : List (Str × Str)) (debugSpecies : List Str) (dry : Bool)
    (text : Str) (lh : LogHdr) (h : Str) (d : List (Str × BVal))
    (hmem : lh ∈ get_log1_specs)
    (hr : renderHdr runprm lh = .ok h)
    (hf : strFind text h = none)
    (hgb : get_blocks runprm pathKeys debugSpecies dry text = .ok d) :
    alGet lh.rpt_hdr d = none := by
  rw [get_blocks_eq] at hgb
  cases hst : blocksLoop runprm pathKeys dry text ⟨[], false⟩ get_log1_specs with
  | error e => rw [hst] at hgb; cases hgb
  | ok st =>
    rw [hst] at hgb
    simp only [Except.bind] at hgb
    cases hpt : postTermini st.blocks with
    | error e => rw [hpt] at hgb; cases hgb
    | ok b1 =>
      rw [hpt] at hgb
      simp only [Except.bind] at hgb
      cases hpd : postDebug debugSpecies st.debug5 b1 with
      | error e => rw [hpd] at hgb; cases hgb
      | ok b2 =>
        rw [hpd] at hgb
        simp only [Except.bind] at hgb
        cases hgb
        have h1 : alGet lh.rpt_hdr st.blocks = none := by
          refine blocksLoop_none_preserve get_log1_specs ⟨[], false⟩ st hst ?_ (by simp [alGet])
          intro lh' hm hk
          have he : lh' = lh := get_log1_specs_rpt_hdr_inj lh' hm lh hmem hk
          rw [he]
          exact ⟨h, hr, hf⟩
        exact postClashes_none_preserve (postDebug_none_preserve hpd
          (postTermini_none_preserve hpt h1))

set_option maxRecDepth 40000 in
/-- C3 witness: on a log containing only the cofactor block, the Renamed
heading (block 1, whose marker is absent) is absent from the mapping. -/
theorem C3_absent_marker_absent_heading_witness :
    alGet (S "Renamed") [(S "Free Cofactors", BVal.lines [])] = none :=
  C3_absent_marker_absent_heading stdPrm [] [] false C8text (get_log1_specs.getD 0 default)
    (S "   Rename residue and atom names...") [(S "Free Cofactors", BVal.lines [])]
    (by decide) (by decide) (by decide) (by decide)

theorem renderHdr_key_missing {runprm : List (Str × Str)} {lh : LogHdr} {k : Str}
    (hidx : lh.idx = 5 ∨ lh.idx = 7) (hk : lh.get_key = some k)
    (hmiss : alGet k runprm = none) : renderHdr runprm lh = .error (.keyError k) := by
  unfold renderHdr
  rw [if_pos hidx, hk]
  show Except.bind (pyDictGet runprm k) _ = Except.error (PyErr.keyError k)
  unfold pyDictGet
  rw [hmiss]
  exact rfl

/-- C4: if the run configuration lacks a key needed to render a dynamic
block marker, report extraction fails with an uncaught error naming the
missing key.  `H2O_SASCUTOFF` is read in `RunLog1.__init__` before any text
processing, so its absence aborts unconditionally; `CLASH_DISTANCE` is read
when block 7's marker is rendered, so its absence aborts as soon as the
loop reaches block 7 (the hypothesis states that blocks 1-6 processed
without an earlier error of their own). -/
theorem C4_missing_config_key_fatal :
    (∀ (runprm pathKeys : List (Str × Str)) (ds : List Str) (text : Str),
      alGet (S "H2O_SASCUTOFF") runprm = none →
      runlog1 runprm pathKeys ds text = .error (.keyError (S "H2O_SASCUTOFF"))) ∧
    (∀ (runprm pathKeys : List (Str × Str)) (ds : List Str) (text : Str) (b : Bool)
      (st : BState),
      dryOpt runprm = .ok b →
      alGet (S "CLASH_DISTANCE") runprm = none →
      blocksLoop runprm pathKeys b text ⟨[], false⟩ (get_log1_specs.take 6) = .ok st →
      runlog1 runprm pathKeys ds text = .error (.keyError (S "CLASH_DISTANCE"))) := by
  constructor
  · intro runprm pk ds text hmiss
    rw [runlog1_eq]
    have hdry : dryOpt runprm = .error (.keyError (S "H2O_SASCUTOFF")) := by
      unfold dryOpt
      show Except.bind (pyDictGet runprm (S "H2O_SASCUTOFF")) _ = _
      unfold pyDictGet
      rw [hmiss]
      exact rfl
    rw [hdry]
    rfl
  · intro runprm pk ds text b st hdry hmiss hloop
    rw [runlog1_eq, hdry]
    show get_blocks runprm pk ds b text = _
    rw [get_blocks_eq]
    have h7 : renderHdr runprm (get_log1_specs.getD 6 default) =
        .error (.keyError (S "CLASH_DISTANCE")) :=
      renderHdr_key_missing (Or.inr rfl) rfl hmiss
    have hfail : blocksLoop runprm pk b text ⟨[], false⟩ get_log1_specs =
        .error (.keyError (S "CLASH_DISTANCE")) := by
      have hsplit := List.take_append_drop 6 get_log1_specs
      rw [← hsplit, blocksLoop_append, hloop]
      show blocksLoop runprm pk b text st (get_log1_specs.drop 6) = _
      rw [show get_log1_specs.drop 6 =
        get_log1_specs.getD 6 default :: [get_log1_specs.getD 7 default] from rfl]
      exact blocksLoop_cons_error (blockStep_render_error h7)
    rw [hfail]
    rfl

/-- C4 witness: a configuration missing `H2O_SASCUTOFF` fails naming it; a
configuration holding only `H2O_SASCUTOFF` fails naming `CLASH_DISTANCE`
(on the empty log, whose first six blocks are trivially absent). -/
theorem C4_missing_config_key_fatal_witness :
    runlog1 C4prmA [] [] (S "") = .error (.keyError (S "H2O_SASCUTOFF")) ∧
    runlog1 C4prmB [] [] (S "") = .error (.keyError (S "CLASH_DISTANCE")) :=
  ⟨C4_missing_config_key_fatal.1 C4prmA [] [] (S "") (by decide),
   C4_missing_config_key_fatal.2 C4prmB [] [] (S "") false ⟨[], false⟩
     (by decide) (by decide) (by decide)⟩

theorem blocksLoop_id_of_absent {r p : List (Str × Str)} {dry : Bool} {text : Str}
    (specs : List LogHdr) :
    ∀ st : BState, (∀ lh ∈ specs, markerAbsentB r text lh = true) →
      blocksLoop r p dry text st specs = .ok st := by
  induction specs with
  | nil => intro st _; rfl
  | cons lh rest ih =>
    intro st habs
    have h1 := habs lh (by simp)
    unfold markerAbsentB at h1
    cases hr : renderHdr r lh with
    | error e => rw [hr] at h1; cases h1
    | ok h =>
      rw [hr] at h1
      have hf : strFind text h = none := Option.isNone_iff_eq_none.mp h1
      rw [blocksLoop_cons, blockStep_absent hr hf]
      simp only [Except.bind]
      exact ih st (fun lh' hm => habs lh' (by simp [hm]))

/-- C5 (amended): with the two dynamic-marker keys present and parsing,
absent sections never raise — a log in which no block marker occurs yields
the empty report mapping.  (As stated the claim is false: malformed content
inside a present section can raise, see the counterexample.) -/
theorem C5_absent_sections_never_raise
    (runprm pathKeys : List (Str × Str)) (debugSpecies : List Str) (text : Str) (b : Bool)
    (hdry : dryOpt runprm = .ok b)
    (habs : ∀ lh ∈ get_log1_specs, markerAbsentB runprm text lh = true) :
    runlog1 runprm pathKeys debugSpecies text = .ok [] := by
  rw [runlog1_eq, hdry]
  show get_blocks runprm pathKeys debugSpecies b text = _
  rw [get_blocks_eq, blocksLoop_id_of_absent get_log1_specs ⟨[], false⟩ habs]
  exact rfl

/-- C5 witness: a marker-free log under `stdPrm` yields the empty mapping. -/
theorem C5_absent_sections_never_raise_witness :
    runlog1 stdPrm [] [] C5wtext = .ok [] :=
  C5_absent_sections_never_raise stdPrm [] [] C5wtext false (by decide) (by decide)

theorem heavyLoop_filter (ls : List Str) :
    ∀ acc : List Str, (∀ l ∈ ls, (parseHeavy l).isSome) →
      heavyLoop acc ls = .ok (acc ++ ls.filter (fun l => !(parseHeavy l).getD false)) := by
  induction ls with
  | nil => intro acc _; simp [heavyLoop]
  | cons l rest ih =>
    intro acc hall
    have h1 := hall l (by simp)
    have hrest : ∀ x ∈ rest, (parseHeavy x).isSome := fun x hm => hall x (by simp [hm])
    unfold heavyLoop
    cases hsp : pySplitOn (S " in ") l with
    | nil => simp [parseHeavy, hsp] at h1
    | cons conf t =>
      cases t with
      | nil => simp [parseHeavy, hsp] at h1
      | cons res t2 =>
        cases t2 with
        | cons x t3 => simp [parseHeavy, hsp] at h1
        | nil =>
          dsimp only
          cases hrs : pyRsplit1 conf with
          | nil => simp [parseHeavy, hsp, hrs] at h1
          | cons a u =>
            cases u with
            | nil => simp [parseHeavy, hsp, hrs] at h1
            | cons tok u2 =>
              cases u2 with
              | cons y u3 => simp [parseHeavy, hsp, hrs] at h1
              | nil =>
                dsimp only
                have hph : parseHeavy l = some (pyEndswith (S "BK") tok) := by
                  unfold parseHeavy
                  rw [hsp]
                  dsimp only
                  rw [hrs]
                by_cases hbk : pyEndswith (S "BK") tok = true
                · rw [if_pos hbk, ih acc hrest]
                  have hkeep : (!(parseHeavy l).getD false) = false := by
                    rw [hph, hbk]
                    rfl
                  rw [List.filter_cons, hkeep]
                  simp
                · have hb : pyEndswith (S "BK") tok = false := by
                    revert hbk
                    cases pyEndswith (S "BK") tok <;> simp
                  rw [if_neg hbk, ih (acc ++ [l]) hrest]
                  have hkeep : (!(parseHeavy l).getD false) = true := by
                    rw [hph, hb]
                    rfl
                  rw [List.filter_cons, hkeep]
                  simp

/-- Lemma: `filter_heavy_atm_section` with the do-notation spelled out. -/
theorem filter_heavy_eq (stem : Str) (d : InfoD) :
    filter_heavy_atm_section stem d =
      (pyDictGet d stem).bind (fun sect =>
        (pyDictGet sect (S "MCCE.Step1")).bind (fun step1 =>
          (match alGet (S "Missing Heavy Atoms") step1 with
          | none => Except.ok d
          | some hv =>
            match alGet (S "Termini") step1 with
            | none => Except.ok d
            | some _ =>
              match hv with
              | BVal.lines ls =>
                (heavyLoop [] (if ls.length > 1 then ls.dropLast else ls)).bind
                  (fun hvy =>
                    Except.ok (alSet stem (alSet (S "MCCE.Step1")
                      (alSet (S "Missing Heavy Atoms") (BVal.lines hvy) step1) sect) d))
              | BVal.pairs _ => Except.error (PyErr.valueError (S "not a line list"))
            : Except PyErr InfoD))) :=
  rfl

/-- C6 (amended): the trailing entry is dropped from the pre-filtering list
whenever that list has more than one entry, and the backbone filter then
runs on the shortened list; with at most one incoming entry nothing is
dropped.  (As originally stated — drop-last after filtering, keyed to the
post-filter count — the claim is false, see the counterexample.) -/
theorem C6_pop_before_filter
    (stem : Str) (d : InfoD) (sect : SectD) (step1 : Step1D) (tv : BVal) (ls : List Str)
    (hsect : pyDictGet d stem = .ok sect)
    (hstep1 : pyDictGet sect (S "MCCE.Step1") = .ok step1)
    (hheavy : alGet (S "Missing Heavy Atoms") step1 = some (BVal.lines ls))
    (htermi : alGet (S "Termini") step1 = some tv)
    (hparse : ∀ l ∈ (if ls.length > 1 then ls.dropLast else ls), (parseHeavy l).isSome) :
    filter_heavy_atm_section stem d =
      .ok (alSet stem (alSet (S "MCCE.Step1")
        (alSet (S "Missing Heavy Atoms")
          (BVal.lines ((if ls.length > 1 then ls.dropLast else ls).filter
            (fun l => !(parseHeavy l).getD false)))
          step1) sect) d) := by
  rw [filter_heavy_eq, hsect]
  simp only [Except.bind]
  rw [hstep1]
  simp only [Except.bind]
  rw [hheavy, htermi]
  dsimp only
  rw [heavyLoop_filter _ [] hparse]
  simp only [Except.bind, List.nil_append]

/-- C6 witness: on `C6info` the pre-filter pop removes `"C2 CA in L2"` and
the filter then removes the remaining backbone line, leaving the empty
list. -/
theorem C6_pop_before_filter_witness :
    filter_heavy_atm_section (S "p") C6info = .ok C6info' := by
  have h := C6_pop_before_filter (S "p") C6info
    [(S "MCCE.Step1",
      [(S "Termini", BVal.pairs [(S "NTR", [S "L1"])]),
       (S "Missing Heavy Atoms", BVal.lines [S "C1 BK in L1", S "C2 CA in L2"])])]
    [(S "Termini", BVal.pairs [(S "NTR", [S "L1"])]),
     (S "Missing Heavy Atoms", BVal.lines [S "C1 BK in L1", S "C2 CA in L2"])]
    (BVal.pairs [(S "NTR", [S "L1"])])
    [S "C1 BK in L1", S "C2 CA in L2"]
    (by decide) (by decide) (by decide) (by decide) (by decide)
  rw [h]
  decide

theorem pyDictGet_ok {α : Type} {d : List (Str × α)} {k : Str} {v : α} :
    pyDictGet d k = .ok v ↔ alGet k d = some v := by
  unfold pyDictGet
  cases alGet k d <;> simp

/-- C10: `filter_heavy_atm_section` is the identity in the early-return
cases (missing 'Missing Heavy Atoms' or 'Termini' entry), and any mapping
it returns agrees with its input everywhere except the 'Missing Heavy
Atoms' entry of the pdb's 'MCCE.Step1' section: other pdb keys, other
section keys and other headings are unchanged. -/
theorem C10_frame (stem : Str) (d : InfoD) :
    (∀ sect step1,
      pyDictGet d stem = .ok sect →
      pyDictGet sect (S "MCCE.Step1") = .ok step1 →
      (alGet (S "Missing Heavy Atoms") step1 = none ∨ alGet (S "Termini") step1 = none) →
      filter_heavy_atm_section stem d = .ok d) ∧
    (∀ d', filter_heavy_atm_section stem d = .ok d' →
      (∀ k, k ≠ stem → alGet k d' = alGet k d) ∧
      (∀ sect0, alGet stem d = some sect0 →
        ∃ sect', alGet stem d' = some sect' ∧
          (∀ s, s ≠ S "MCCE.Step1" → alGet s sect' = alGet s sect0) ∧
          (∀ m, alGet (S "MCCE.Step1") sect0 = some m →
            ∃ m', alGet (S "MCCE.Step1") sect' = some m' ∧
              ∀ hk, hk ≠ S "Missing Heavy Atoms" → alGet hk m' = alGet hk m))) := by
  constructor
  · intro sect step1 hsect hstep1 hor
    rw [filter_heavy_eq, hsect]
    simp only [Except.bind]
    rw [hstep1]
    simp only [Except.bind]
    cases hh : alGet (S "Missing Heavy Atoms") step1 with
    | none => rfl
    | some hv =>
      have ht : alGet (S "Termini") step1 = none := hor.resolve_left (by simp [hh])
      rw [ht]
  · intro d' hf
    rw [filter_heavy_eq] at hf
    cases hsect : pyDictGet d stem with
    | error e => rw [hsect] at hf; cases hf
    | ok sect =>
      rw [hsect] at hf
      simp only [Except.bind] at hf
      cases hstep1 : pyDictGet sect (S "MCCE.Step1") with
      | error e => rw [hstep1] at hf; cases hf
      | ok step1 =>
        rw [hstep1] at hf
        simp only [Except.bind] at hf
        have htriv : d' = d →
            (∀ k, k ≠ stem → alGet k d' = alGet k d) ∧
            (∀ sect0, alGet stem d = some sect0 →
              ∃ sect', alGet stem d' = some sect' ∧
                (∀ s, s ≠ S "MCCE.Step1" → alGet s sect' = alGet s sect0) ∧
                (∀ m, alGet (S "MCCE.Step1") sect0 = some m →
                  ∃ m', alGet (S "MCCE.Step1") sect' = some m' ∧
                    ∀ hk, hk ≠ S "Missing Heavy Atoms" → alGet hk m' = alGet hk m)) := by
          rintro rfl
          exact ⟨fun k _ => rfl,
            fun sect0 hs => ⟨sect0, hs, fun s _ => rfl,
              fun m hm => ⟨m, hm, fun hk _ => rfl⟩⟩⟩
        cases hh : alGet (S "Missing Heavy Atoms") step1 with
        | none =>
          rw [hh] at hf
          cases hf
          exact htriv rfl
        | some hv =>
          rw [hh] at hf
          cases ht : alGet (S "Termini") step1 with
          | none =>
            rw [ht] at hf
            cases hf
            exact htriv rfl
          | some tv =>
            rw [ht] at hf
            cases hv with
            | pairs ps => cases hf
            | lines ls =>
              dsimp only at hf
              cases hloop : heavyLoop [] (if ls.length > 1 then ls.dropLast else ls) with
              | error e => rw [hloop] at hf; cases hf
              | ok hvy =>
                rw [hloop] at hf
                cases hf
                have hsect' : alGet stem d = some sect := pyDictGet_ok.mp hsect
                have hstep1' : alGet (S "MCCE.Step1") sect = some step1 :=
                  pyDictGet_ok.mp hstep1
                refine ⟨fun k hk => alGet_alSet_ne (Ne.symm hk) _ _, ?_⟩
                intro sect0 hs0
                rw [hsect'] at hs0
                cases hs0
                refine ⟨alSet (S "MCCE.Step1")
                  (alSet (S "Missing Heavy Atoms") (BVal.lines hvy) step1) sect,
                  alGet_alSet_self _ _ _, fun s hs => alGet_alSet_ne (Ne.symm hs) _ _, ?_⟩
                intro m hm
                rw [hstep1'] at hm
                cases hm
                exact ⟨alSet (S "Missing Heavy Atoms") (BVal.lines hvy) step1,
                  alGet_alSet_self _ _ _, fun hk hkn => alGet_alSet_ne (Ne.symm hkn) _ _⟩

/-- C10 witness: on a mapping whose Step1 section lacks a 'Termini' entry,
the function returns its input unchanged. -/
theorem C10_frame_witness :
    filter_heavy_atm_section (S "p") C10info = .ok C10info :=
  (C10_frame (S "p") C10info).1
    [(S "MCCE.Step1", [(S "Missing Heavy Atoms", BVal.lines [S "C1 BK in L1"])])]
    [(S "Missing Heavy Atoms", BVal.lines [S "C1 BK in L1"])]
    (by decide) (by decide) (Or.inr (by decide))

/-! ## Generic-block extraction (C2) -/

theorem extract_of_decomp {text h mid rest : Str} {p : Nat}
    (hfind : strFind text h = some p)
    (hdrop : text.drop (p + h.length) = mid ++ doneTag ++ rest)
    (hdone : strFind (mid ++ doneTag ++ rest) doneTag = some mid.length) :
    extract_content_between_tags text h doneTag = some mid := by
  unfold extract_content_between_tags
  rw [hfind]
  dsimp only
  rw [hdrop, hdone]
  dsimp only
  rw [List.append_assoc, List.take_left]

theorem phase3_ne3 {lh : LogHdr} (h : lh.idx ≠ 3) (st : PCBState) (line : Str) :
    phase3 lh st line = .ok (st, some line) := by
  unfold phase3
  rw [if_pos h]

theorem phase5_ne5 {lh : LogHdr} (h : lh.idx ≠ 5) (st : PCBState) (line : Str) :
    phase5 lh st line = .ok (st, some line) := by
  unfold phase5
  rw [if_pos h]

/-- Lemma: `pcbLine` with the do-notation spelled out. -/
theorem pcbLine_eq (lh : LogHdr) (st : PCBState) (line : Str) :
    pcbLine lh st line =
      if line = [] then .ok st
      else (phase3 lh st line).bind (fun r =>
        match r with
        | (st, none) => Except.ok st
        | (st, some line) =>
          (phase5 lh st line).bind (fun r2 =>
            match r2 with
            | (st, none) => Except.ok st
            | (st, some line) =>
              if skipMatch lh.skip_lines line then Except.ok st
              else Except.ok { st with out := st.out ++ [applyChange lh.line_start line] })) :=
  rfl

theorem pcbLine_notidx35 {lh : LogHdr} (h3 : lh.idx ≠ 3) (h5 : lh.idx ≠ 5)
    (st : PCBState) (line : Str) :
    pcbLine lh st line = .ok (
      if line = [] then st
      else if skipMatch lh.skip_lines line then st
      else { st with out := st.out ++ [applyChange lh.line_start line] }) := by
  rw [pcbLine_eq]
  by_cases hl : line = []
  · rw [if_pos hl, if_pos hl]
  · rw [if_neg hl, if_neg hl, phase3_ne3 h3]
    simp only [Except.bind]
    rw [phase5_ne5 h5]
    simp only [Except.bind]
    by_cases hs : skipMatch lh.skip_lines line = true
    · rw [if_pos hs, if_pos hs]
    · rw [if_neg hs, if_neg hs]

theorem pcbLoop_notidx35 {lh : LogHdr} (h3 : lh.idx ≠ 3) (h5 : lh.idx ≠ 5) (ls : List Str) :
    ∀ st : PCBState,
      pcbLoop lh st ls = .ok { st with out := st.out ++
        ((ls.filter (fun l => !l.isEmpty && !skipMatch lh.skip_lines l)).map
          (applyChange lh.line_start)) } := by
  induction ls with
  | nil =>
    intro st
    show Except.ok st = _
    simp
  | cons l rest ih =>
    intro st
    show (pcbLine lh st l).bind (fun st' => pcbLoop lh st' rest) = _
    rw [pcbLine_notidx35 h3 h5]
    simp only [Except.bind]
    by_cases hl : l = []
    · subst hl
      rw [if_pos rfl, ih st, List.filter_cons]
      simp
    · have hle : ([] : Str).isEmpty = true := rfl
      have hne : l.isEmpty = false := by
        cases l with
        | nil => exact absurd rfl hl
        | cons c cs => rfl
      rw [if_neg hl]
      by_cases hs : skipMatch lh.skip_lines l = true
      · rw [if_pos hs, ih st, List.filter_cons]
        simp [hne, hs]
      · have hsf : skipMatch lh.skip_lines l = false := by
          revert hs
          cases skipMatch lh.skip_lines l <;> simp
        rw [if_neg hs, ih _, List.filter_cons]
        simp [hne, hsf]

/-- Lemma: `process_content_block` with the do-notation spelled out. -/
theorem process_eq (dry : Bool) (pk : List (Str × Str)) (content : List Str) (lh : LogHdr) :
    process_content_block dry pk content lh =
      (pcbLoop lh ⟨[], false, if lh.idx = 3 then some [] else none, none⟩ content).bind
        (pcbPost dry pk lh) := rfl

theorem process_notidx35 {lh : LogHdr} (h3 : lh.idx ≠ 3) (h5 : lh.idx ≠ 5)
    (dry : Bool) (pk : List (Str × Str)) (content : List Str) :
    process_content_block dry pk content lh =
      .ok (((content.filter (fun l => !l.isEmpty && !skipMatch lh.skip_lines l)).map
        (applyChange lh.line_start)), false) := by
  rw [process_eq, pcbLoop_notidx35 h3 h5]
  simp only [Except.bind]
  unfold pcbPost
  rw [if_neg h3, if_neg (show ¬(lh.idx = 5 ∧ dry = true) from fun hc => h5 hc.1)]
  simp

theorem applyChange_nil (pfx : Option Str) : applyChange pfx [] = [] := by
  cases pfx with
  | none => rfl
  | some p => cases p <;> rfl

theorem filter_map_filter_empty (skips : Option SkipRules) (pfx : Option Str) (ls : List Str)
    (hsk : skipMatch skips [] = false) :
    ((ls.filter (fun l => !l.isEmpty && !skipMatch skips l)).map (applyChange pfx)).filter
      (fun l => pyStrip l ≠ []) =
    ((ls.filter (fun l => !skipMatch skips l)).map (applyChange pfx)).filter
      (fun l => pyStrip l ≠ []) := by
  induction ls with
  | nil => rfl
  | cons l rest ih =>
    by_cases hl : l = []
    · subst hl
      rw [List.filter_cons, List.filter_cons]
      simp only [List.isEmpty_nil, Bool.not_true, Bool.false_and, hsk, Bool.not_false,
        if_false, if_true, List.map_cons, List.filter_cons, applyChange_nil]
      rw [if_neg (by simp [pyStrip, pyLStrip, pyRStrip])]
      exact ih
    · have hne : l.isEmpty = false := by
        cases l with
        | nil => exact absurd rfl hl
        | cons c cs => rfl
      rw [List.filter_cons, List.filter_cons, hne]
      simp only [Bool.not_false, Bool.true_and]
      by_cases hs : skipMatch skips l = true
      · simp only [hs, Bool.not_true, if_false]
        exact ih
      · have hsf : skipMatch skips l = false := by
          revert hs
          cases skipMatch skips l <;> simp
        simp only [hsf, Bool.not_false, if_true, List.map_cons, List.filter_cons]
        by_cases hb : pyStrip (applyChange pfx l) ≠ []
        · rw [if_pos (by simpa using hb), if_pos (by simpa using hb), ih]
        · rw [if_neg (by simpa using hb), if_neg (by simpa using hb)]
          exact ih

theorem blocksLoop_preserve_get {r p : List (Str × Str)} {dry : Bool} {text : Str} {K : Str}
    (specs : List LogHdr) :
    ∀ st st' : BState,
      blocksLoop r p dry text st specs = .ok st' →
      (∀ lh ∈ specs, lh.rpt_hdr ≠ K) →
      alGet K st'.blocks = alGet K st.blocks := by
  induction specs with
  | nil =>
    intro st st' hloop _
    rw [blocksLoop_nil] at hloop
    cases hloop
    rfl
  | cons lh rest ih =>
    intro st st' hloop hne
    obtain ⟨st1, hstep, hrest⟩ := blocksLoop_cons_ok.mp hloop
    have h1 : alGet K st1.blocks = alGet K st.blocks :=
      blockStep_preserve K (hne lh (by simp)) hstep
    exact (ih st1 st' hrest (fun lh' hm => hne lh' (by simp [hm]))).trans h1

theorem blockStep_spec6 {r p : List (Str × Str)} {dry : Bool} {text mid rest : Str}
    {pp : Nat} (st : BState)
    (hfind : strFind text spec6.hdr = some pp)
    (hdrop : text.drop (pp + spec6.hdr.length) = mid ++ doneTag ++ rest)
    (hdone : strFind (mid ++ doneTag ++ rest) doneTag = some mid.length) :
    blockStep r p dry text st spec6 =
      .ok ⟨alSet spec6.rpt_hdr
        (BVal.lines (specCleanedLines [S "   Missing heavy atoms detected."]
          (some (S "   Missing heavy atom  ")) (pySplitlines mid))) st.blocks,
        st.debug5⟩ := by
  rw [blockStep_eq]
  rw [show renderHdr r spec6 = .ok spec6.hdr from rfl]
  simp only [Except.bind]
  rw [extract_of_decomp hfind hdrop hdone]
  dsimp only
  rw [if_neg (show ¬spec6.idx = 1 by decide)]
  rw [if_pos (show spec6.line_start ≠ none ∨ spec6.skip_lines ≠ none from Or.inl (by decide))]
  rw [process_notidx35 (by decide) (by decide) dry p (pySplitlines mid)]
  simp only [Except.bind]
  unfold blockStepStore
  rw [if_neg (show ¬spec6.idx = 5 by decide)]
  dsimp only
  rw [filter_map_filter_empty _ _ _ (by decide)]
  rfl

set_option maxRecDepth 4000 in
/-- C2 (amended): when the Missing-Heavy-Atoms block's start marker occurs
in the log (first occurrence at `pp`) with the shared end marker after it,
and `get_blocks` succeeds, the mapping sends that heading to exactly the
lines strictly between the two markers, with skip-rule matches removed, the
line-start prefix stripped from lines beginning with it, and blank lines
dropped (`specCleanedLines`).  Blocks with index-specific transforms
(1, 2, 3, 5, 7) additionally apply those transforms, so the uniform claim
fails for them — see the counterexample. -/
theorem C2_generic_block_cleaned
    (runprm pathKeys : List (Str × Str)) (debugSpecies : List Str) (dry : Bool)
    (text mid rest : Str) (pp : Nat) (d : List (Str × BVal))
    (hfind : strFind text spec6.hdr = some pp)
    (hdrop : text.drop (pp + spec6.hdr.length) = mid ++ doneTag ++ rest)
    (hdone : strFind (mid ++ doneTag ++ rest) doneTag = some mid.length)
    (hgb : get_blocks runprm pathKeys debugSpecies dry text = .ok d) :
    alGet (S "Missing Heavy Atoms") d =
      some (BVal.lines (specCleanedLines [S "   Missing heavy atoms detected."]
        (some (S "   Missing heavy atom  ")) (pySplitlines mid))) := by
  rw [get_blocks_eq] at hgb
  cases hst : blocksLoop runprm pathKeys dry text ⟨[], false⟩ get_log1_specs with
  | error e => rw [hst] at hgb; cases hgb
  | ok st =>
    rw [hst] at hgb
    simp only [Except.bind] at hgb
    cases hpt : postTermini st.blocks with
    | error e => rw [hpt] at hgb; cases hgb
    | ok b1 =>
      rw [hpt] at hgb
      simp only [Except.bind] at hgb
      cases hpd : postDebug debugSpecies st.debug5 b1 with
      | error e => rw [hpd] at hgb; cases hgb
      | ok b2 =>
        rw [hpd] at hgb
        simp only [Except.bind] at hgb
        cases hgb
        have hsplit : get_log1_specs =
            get_log1_specs.take 5 ++ spec6 :: get_log1_specs.drop 6 := rfl
        rw [hsplit, blocksLoop_append] at hst
        cases hstA : blocksLoop runprm pathKeys dry text ⟨[], false⟩
            (get_log1_specs.take 5) with
        | error e => rw [hstA] at hst; cases hst
        | ok stA =>
          rw [hstA] at hst
          simp only [Except.bind] at hst
          obtain ⟨stB, hstep6, hrest⟩ := blocksLoop_cons_ok.mp hst
          rw [blockStep_spec6 stA hfind hdrop hdone] at hstep6
          cases hstep6
          have hloopv : alGet (S "Missing Heavy Atoms") st.blocks =
              some (BVal.lines (specCleanedLines [S "   Missing heavy atoms detected."]
                (some (S "   Missing heavy atom  ")) (pySplitlines mid))) := by
            rw [blocksLoop_preserve_get (get_log1_specs.drop 6) _ st hrest (by decide)]
            exact alGet_alSet_self _ _ _
          calc alGet (S "Missing Heavy Atoms") (postClashes b2)
              = alGet (S "Missing Heavy Atoms") b2 :=
                postClashes_preserve b2 _ (by decide)
            _ = alGet (S "Missing Heavy Atoms") b1 :=
                postDebug_preserve _ (by decide) hpd
            _ = alGet (S "Missing Heavy Atoms") st.blocks :=
                postTermini_preserve _ (by decide) hpt
            _ = _ := hloopv

set_option maxRecDepth 100000 in
/-- C2 witness: a log holding exactly one Missing-Heavy-Atoms block. -/
theorem C2_generic_block_cleaned_witness :
    get_blocks stdPrm [] [] false C2wtext =
      .ok [(S "Missing Heavy Atoms", BVal.lines [S " CB of GLU in \"A0123\"."])] ∧
    alGet (S "Missing Heavy Atoms")
        [(S "Missing Heavy Atoms", BVal.lines [S " CB of GLU in \"A0123\"."])] =
      some (BVal.lines (specCleanedLines [S "   Missing heavy atoms detected."]
        (some (S "   Missing heavy atom  ")) (pySplitlines C2wmid))) :=
  ⟨by decide,
   C2_generic_block_cleaned stdPrm [] [] false C2wtext C2wmid (S "\n") 0
     [(S "Missing Heavy Atoms", BVal.lines [S " CB of GLU in \"A0123\"."])]
     (by decide) (by decide) (by decide) (by decide)⟩

/-! ## Dry-run / wet-run relation (C7) -/

theorem pcbPost_dry_irrel {lh : LogHdr} (h5 : lh.idx ≠ 5) (d1 d2 : Bool)
    (pk : List (Str × Str)) : pcbPost d1 pk lh = pcbPost d2 pk lh := by
  funext st
  unfold pcbPost
  rw [if_neg (show ¬(lh.idx = 5 ∧ d1 = true) from fun hc => h5 hc.1),
    if_neg (show ¬(lh.idx = 5 ∧ d2 = true) from fun hc => h5 hc.1)]

theorem process_dry_irrel {lh : LogHdr} (h5 : lh.idx ≠ 5) (d1 d2 : Bool)
    (pk : List (Str × Str)) (c : List Str) :
    process_content_block d1 pk c lh = process_content_block d2 pk c lh := by
  rw [process_eq, process_eq, pcbPost_dry_irrel h5 d1 d2 pk]

theorem blockStep_dry_irrel {lh : LogHdr} (h5 : lh.idx ≠ 5) (r p : List (Str × Str))
    (text : Str) (st : BState) (d1 d2 : Bool) :
    blockStep r p d1 text st lh = blockStep r p d2 text st lh := by
  rw [blockStep_eq, blockStep_eq]
  simp only [process_dry_irrel h5 d1 d2 p]

theorem process5_rel {lh : LogHdr} (h5 : lh.idx = 5) (pk : List (Str × Str))
    (c : List Str) :
    process_content_block true pk c lh =
      (process_content_block false pk c lh).map
        (fun pr => (MSG_KEEP_WATS :: pr.1, pr.2)) := by
  rw [process_eq, process_eq]
  cases hL : pcbLoop lh ⟨[], false, if lh.idx = 3 then some [] else none, none⟩ c with
  | error e => rfl
  | ok stf =>
    simp only [Except.bind]
    unfold pcbPost
    rw [if_pos (show lh.idx = 5 ∧ true = true from ⟨h5, rfl⟩),
      if_neg (show ¬(lh.idx = 5 ∧ false = true) from fun hc => by cases hc.2),
      if_neg (show ¬lh.idx = 3 from fun h3 => by rw [h5] at h3; cases h3),
      if_neg (show ¬lh.idx = 3 from fun h3 => by rw [h5] at h3; cases h3)]
    rfl

theorem extract_none_iff {text h : Str} :
    extract_content_between_tags text h doneTag = none ↔ strFind text h = none := by
  unfold extract_content_between_tags
  cases hf : strFind text h with
  | none => simp
  | some p =>
    simp only
    cases strFind (text.drop (p + h.length)) doneTag <;> simp

theorem blockStepStore_eq (st : BState) (lh : LogHdr) (pr : List Str × Bool) :
    blockStepStore st lh pr =
      .ok ⟨alSet lh.rpt_hdr (BVal.lines (pr.1.filter (fun l => pyStrip l ≠ []))) st.blocks,
        if lh.idx = 5 then pr.2 else st.debug5⟩ := by
  unfold blockStepStore
  by_cases h5 : lh.idx = 5 <;> simp [h5]

theorem blockStep_cases {r p : List (Str × Str)} {dry : Bool} {text : Str} {lh : LogHdr}
    {st st' : BState} (hstep : blockStep r p dry text st lh = .ok st') :
    ((∀ st2 : BState, blockStep r p dry text st2 lh = .ok st2) ∧ st' = st) ∨
    (∃ v dbg, (∀ st2 : BState, blockStep r p dry text st2 lh =
        .ok ⟨alSet lh.rpt_hdr v st2.blocks, if lh.idx = 5 then dbg else st2.debug5⟩) ∧
      st' = ⟨alSet lh.rpt_hdr v st.blocks, if lh.idx = 5 then dbg else st.debug5⟩) := by
  rw [blockStep_eq] at hstep
  cases hr : renderHdr r lh with
  | error e => rw [hr] at hstep; exact absurd hstep (by simp [Except.bind])
  | ok h =>
    rw [hr] at hstep
    simp only [Except.bind] at hstep
    cases hx : extract_content_between_tags text h doneTag with
    | none =>
      left
      rw [hx] at hstep
      cases hstep
      exact ⟨fun st2 => blockStep_absent hr (extract_none_iff.mp hx), rfl⟩
    | some content =>
      right
      rw [hx] at hstep
      simp only at hstep
      by_cases hc : lh.line_start ≠ none ∨ lh.skip_lines ≠ none
      · rw [if_pos hc] at hstep
        cases hp : process_content_block dry p
            (if lh.idx = 1 then pySorted (pySplitlines content) else pySplitlines content) lh with
        | error e => rw [hp] at hstep; exact absurd hstep (by simp [Except.bind])
        | ok pr =>
          rw [hp] at hstep
          simp only [Except.bind] at hstep
          rw [blockStepStore_eq] at hstep
          cases hstep
          refine ⟨BVal.lines (pr.1.filter (fun l => pyStrip l ≠ [])), pr.2, ?_, rfl⟩
          intro st2
          rw [blockStep_eq, hr]
          simp only [Except.bind]
          rw [hx]
          simp only
          rw [if_pos hc, hp]
          simp only [Except.bind]
          rw [blockStepStore_eq]
      · rw [if_neg hc] at hstep
        rw [blockStepStore_eq] at hstep
        cases hstep
        refine ⟨BVal.lines ((if lh.idx = 1 then pySorted (pySplitlines content)
            else pySplitlines content).filter (fun l => pyStrip l ≠ [])), false, ?_, rfl⟩
        intro st2
        rw [blockStep_eq, hr]
        simp only [Except.bind]
        rw [hx]
        simp only
        rw [if_neg hc]
        rw [blockStepStore_eq]

theorem blockStep_fcRel_non5 {r p : List (Str × Str)} {text : Str} {lh : LogHdr}
    (h5 : lh.idx ≠ 5) (hK : lh.rpt_hdr ≠ S "Free Cofactors")
    {sf sf' st : BState}
    (hstep : blockStep r p false text sf lh = .ok sf')
    (hdbg : st.debug5 = sf.debug5) (hrel : fcRel sf.blocks st.blocks) :
    ∃ st', blockStep r p true text st lh = .ok st' ∧ st'.debug5 = sf'.debug5 ∧
      fcRel sf'.blocks st'.blocks := by
  rcases blockStep_cases hstep with ⟨hall, rfl⟩ | ⟨v, dbg, hall, rfl⟩
  · refine ⟨st, ?_, hdbg, hrel⟩
    rw [blockStep_dry_irrel h5 r p text st true false]
    exact hall st
  · refine ⟨⟨alSet lh.rpt_hdr v st.blocks, if lh.idx = 5 then dbg else st.debug5⟩, ?_, ?_, ?_⟩
    · rw [blockStep_dry_irrel h5 r p text st true false]
      exact hall st
    · simp [if_neg h5, hdbg]
    · rcases hrel with ⟨hbeq, hnone⟩ | ⟨ls, hsome, hset⟩
      · left
        refine ⟨by rw [hbeq], ?_⟩
        show alGet (S "Free Cofactors") (alSet lh.rpt_hdr v sf.blocks) = none
        rw [alGet_alSet_ne hK]
        exact hnone
      · right
        refine ⟨ls, ?_, ?_⟩
        · show alGet (S "Free Cofactors") (alSet lh.rpt_hdr v sf.blocks) = _
          rw [alGet_alSet_ne hK]
          exact hsome
        · show alSet lh.rpt_hdr v st.blocks = _
          rw [hset, alSet_comm_of_mem hK (by rw [hsome]; exact fun c => Option.noConfusion c)]

theorem blockStep_fcRel_5 {r p : List (Str × Str)} {text : Str} {lh : LogHdr}
    (h5 : lh.idx = 5) (hK : lh.rpt_hdr = S "Free Cofactors") (hsk : lh.skip_lines ≠ none)
    {sf sf' st : BState}
    (hstep : blockStep r p false text sf lh = .ok sf')
    (hdbg : st.debug5 = sf.debug5) (hrel : fcRel sf.blocks st.blocks) :
    ∃ st', blockStep r p true text st lh = .ok st' ∧ st'.debug5 = sf'.debug5 ∧
      fcRel sf'.blocks st'.blocks := by
  rw [blockStep_eq] at hstep
  cases hr : renderHdr r lh with
  | error e => rw [hr] at hstep; exact absurd hstep (by simp [Except.bind])
  | ok h =>
    rw [hr] at hstep
    simp only [Except.bind] at hstep
    cases hx : extract_content_between_tags text h doneTag with
    | none =>
      rw [hx] at hstep
      cases hstep
      exact ⟨st, blockStep_absent hr (extract_none_iff.mp hx), hdbg, hrel⟩
    | some content =>
      rw [hx] at hstep
      simp only at hstep
      have hcond : lh.line_start ≠ none ∨ lh.skip_lines ≠ none := Or.inr hsk
      rw [if_pos hcond] at hstep
      cases hp : process_content_block false p
          (if lh.idx = 1 then pySorted (pySplitlines content) else pySplitlines content) lh with
      | error e => rw [hp] at hstep; exact absurd hstep (by simp [Except.bind])
      | ok prf =>
        rw [hp] at hstep
        simp only [Except.bind] at hstep
        rw [blockStepStore_eq] at hstep
        cases hstep
        have hfilter : (MSG_KEEP_WATS :: prf.1).filter (fun l => pyStrip l ≠ []) =
            MSG_KEEP_WATS :: prf.1.filter (fun l => pyStrip l ≠ []) := by
          rw [List.filter_cons, if_pos (by decide)]
        refine ⟨⟨alSet lh.rpt_hdr
          (BVal.lines (MSG_KEEP_WATS :: prf.1.filter (fun l => pyStrip l ≠ []))) st.blocks,
          prf.2⟩, ?_, ?_, ?_⟩
        · rw [blockStep_eq, hr]
          simp only [Except.bind]
          rw [hx]
          simp only
          rw [if_pos hcond, process5_rel h5 p, hp]
          simp only [Except.map]
          rw [blockStepStore_eq, if_pos h5]
          dsimp only
          rw [hfilter]
        · rw [if_pos h5]
        · rw [hK]
          right
          refine ⟨prf.1.filter (fun l => pyStrip l ≠ []), ?_, ?_⟩
          · show alGet (S "Free Cofactors")
              (alSet (S "Free Cofactors") (BVal.lines (prf.1.filter (fun l => pyStrip l ≠ [])))
                sf.blocks) = _
            rw [alGet_alSet_self]
          · show alSet (S "Free Cofactors") _ st.blocks = _
            rw [alSet_alSet_self]
            rcases hrel with ⟨hbeq, _⟩ | ⟨ls0, _, hset⟩
            · rw [hbeq]
            · rw [hset, alSet_alSet_self]

theorem blocksLoop_fcRel {r p : List (Str × Str)} {text : Str} (specs : List LogHdr)
    (hspec : ∀ lh ∈ specs,
      (lh.idx = 5 ∧ lh.rpt_hdr = S "Free Cofactors" ∧ lh.skip_lines ≠ none) ∨
      (lh.idx ≠ 5 ∧ lh.rpt_hdr ≠ S "Free Cofactors")) :
    ∀ sf st sf' : BState,
      blocksLoop r p false text sf specs = .ok sf' →
      st.debug5 = sf.debug5 → fcRel sf.blocks st.blocks →
      ∃ st', blocksLoop r p true text st specs = .ok st' ∧
        st'.debug5 = sf'.debug5 ∧ fcRel sf'.blocks st'.blocks := by
  induction specs with
  | nil =>
    intro sf st sf' hloop hdbg hrel
    rw [blocksLoop_nil] at hloop
    cases hloop
    exact ⟨st, rfl, hdbg, hrel⟩
  | cons lh rest ih =>
    intro sf st sf' hloop hdbg hrel
    obtain ⟨sf1, hstep, hrest⟩ := blocksLoop_cons_ok.mp hloop
    rcases hspec lh (by simp) with ⟨h5, hK, hsk⟩ | ⟨h5, hK⟩
    · obtain ⟨st1, hstep_t, hdbg1, hrel1⟩ := blockStep_fcRel_5 h5 hK hsk hstep hdbg hrel
      obtain ⟨st', hloop_t, hdbg', hrel'⟩ :=
        ih (fun lh' hm => hspec lh' (by simp [hm])) sf1 st1 sf' hrest hdbg1 hrel1
      exact ⟨st', blocksLoop_cons_ok.mpr ⟨st1, hstep_t, hloop_t⟩, hdbg', hrel'⟩
    · obtain ⟨st1, hstep_t, hdbg1, hrel1⟩ := blockStep_fcRel_non5 h5 hK hstep hdbg hrel
      obtain ⟨st', hloop_t, hdbg', hrel'⟩ :=
        ih (fun lh' hm => hspec lh' (by simp [hm])) sf1 st1 sf' hrest hdbg1 hrel1
      exact ⟨st', blocksLoop_cons_ok.mpr ⟨st1, hstep_t, hloop_t⟩, hdbg', hrel'⟩

theorem postTermini_fcRel {bf bf' bt : List (Str × BVal)}
    (h : postTermini bf = .ok bf') (hrel : fcRel bf bt) :
    ∃ bt', postTermini bt = .ok bt' ∧ fcRel bf' bt' := by
  rcases hrel with ⟨rfl, hnone⟩ | ⟨ls, hsome, rfl⟩
  · exact ⟨bf', h, Or.inl ⟨rfl, postTermini_none_preserve h hnone⟩⟩
  · have hbt : alGet (S "Termini")
        (alSet (S "Free Cofactors") (BVal.lines (MSG_KEEP_WATS :: ls)) bf) =
        alGet (S "Termini") bf := alGet_alSet_ne (by decide) _ _
    unfold postTermini at h ⊢
    rw [hbt]
    cases ht : alGet (S "Termini") bf with
    | none =>
      rw [ht] at h
      cases h
      exact ⟨_, rfl, Or.inr ⟨ls, hsome, rfl⟩⟩
    | some tv =>
      rw [ht] at h
      cases tv with
      | pairs ps =>
        cases h
        exact ⟨_, rfl, Or.inr ⟨ls, hsome, rfl⟩⟩
      | lines tls =>
        dsimp only at h ⊢
        by_cases hl : tls ≠ []
        · rw [if_pos hl] at h ⊢
          cases hg : terminiGroupLoop [] tls with
          | error e => rw [hg] at h; cases h
          | ok g =>
            rw [hg] at h
            cases h
            refine ⟨_, rfl, Or.inr ⟨ls, ?_, ?_⟩⟩
            · rw [alGet_alSet_ne (by decide)]
              exact hsome
            · rw [alSet_comm_of_mem (by decide)
                (by rw [hsome]; exact fun c => Option.noConfusion c)]
        · rw [if_neg hl] at h ⊢
          cases h
          exact ⟨_, rfl, Or.inr ⟨ls, hsome, rfl⟩⟩

theorem postDebug_fcRel {ds : List Str} {f : Bool} {bf bf' bt : List (Str × BVal)}
    (h : postDebug ds f bf = .ok bf') (hrel : fcRel bf bt) :
    ∃ bt', postDebug ds f bt = .ok bt' ∧ fcRel bf' bt' := by
  cases f with
  | false =>
    cases h
    exact ⟨bt, rfl, hrel⟩
  | true =>
    unfold postDebug at h ⊢
    rw [if_pos rfl] at h ⊢
    rcases hrel with ⟨rfl, hnone⟩ | ⟨ls, hsome, rfl⟩
    · rw [hnone] at h
      cases h
    · rw [hsome] at h
      cases h
      rw [alGet_alSet_self]
      refine ⟨_, rfl, Or.inr ⟨ls ++ ds, ?_, ?_⟩⟩
      · rw [alGet_alSet_self]
      · rw [alSet_alSet_self, alSet_alSet_self]
        rfl

theorem postClashes_fcRel {bf bt : List (Str × BVal)} (hrel : fcRel bf bt) :
    fcRel (postClashes bf) (postClashes bt) := by
  rcases hrel with ⟨rfl, hnone⟩ | ⟨ls, hsome, rfl⟩
  · exact Or.inl ⟨rfl, postClashes_none_preserve hnone⟩
  · have hbt : alGet (S "Distance Clashes")
        (alSet (S "Free Cofactors") (BVal.lines (MSG_KEEP_WATS :: ls)) bf) =
        alGet (S "Distance Clashes") bf := alGet_alSet_ne (by decide) _ _
    unfold postClashes
    rw [hbt]
    cases hd : alGet (S "Distance Clashes") bf with
    | none => exact Or.inr ⟨ls, hsome, rfl⟩
    | some dv =>
      cases dv with
      | pairs ps => exact Or.inr ⟨ls, hsome, rfl⟩
      | lines cls =>
        dsimp only
        by_cases hl : cls ≠ []
        · rw [if_pos hl, if_pos hl]
          refine Or.inr ⟨ls, ?_, ?_⟩
          · rw [alGet_alSet_ne (by decide)]
            exact hsome
          · rw [alSet_comm_of_mem (by decide)
              (by rw [hsome]; exact fun c => Option.noConfusion c)]
        · rw [if_neg hl, if_neg hl]
          exact Or.inr ⟨ls, hsome, rfl⟩

set_option maxRecDepth 4000 in
/-- C7: a dry run (`dry_opt = true`, i.e. water removal enabled because
`H2O_SASCUTOFF == -0.01` was not selected ... here threaded as the flag
`__init__` computes) produces exactly the wet run's mapping with the fixed
`--wet` advisory line prepended as the first element of the Free Cofactors
content; when that heading is absent (or `dry_opt = false`, the baseline
itself), nothing is added and the mappings coincide. -/
theorem C7_dry_advisory_prepended
    (runprm pathKeys : List (Str × Str)) (debugSpecies : List Str) (text : Str)
    (d : List (Str × BVal))
    (hwet : get_blocks runprm pathKeys debugSpecies false text = .ok d) :
    (alGet (S "Free Cofactors") d = none →
      get_blocks runprm pathKeys debugSpecies true text = .ok d) ∧
    (∀ ls, alGet (S "Free Cofactors") d = some (BVal.lines ls) →
      get_blocks runprm pathKeys debugSpecies true text =
        .ok (alSet (S "Free Cofactors") (BVal.lines (MSG_KEEP_WATS :: ls)) d)) := by
  rw [get_blocks_eq] at hwet
  cases hst : blocksLoop runprm pathKeys false text ⟨[], false⟩ get_log1_specs with
  | error e => rw [hst] at hwet; cases hwet
  | ok stf =>
    rw [hst] at hwet
    simp only [Except.bind] at hwet
    cases hpt : postTermini stf.blocks with
    | error e => rw [hpt] at hwet; cases hwet
    | ok b1 =>
      rw [hpt] at hwet
      simp only [Except.bind] at hwet
      cases hpd : postDebug debugSpecies stf.debug5 b1 with
      | error e => rw [hpd] at hwet; cases hwet
      | ok b2 =>
        rw [hpd] at hwet
        simp only [Except.bind] at hwet
        cases hwet
        obtain ⟨st', hloop_t, hdbg', hrel'⟩ :=
          blocksLoop_fcRel get_log1_specs (by decide) ⟨[], false⟩ ⟨[], false⟩ stf hst rfl
            (Or.inl ⟨rfl, rfl⟩)
        obtain ⟨bt1, hpt_t, hrel1⟩ := postTermini_fcRel hpt hrel'
        obtain ⟨bt2, hpd_t, hrel2⟩ := postDebug_fcRel hpd hrel1
        have hrel3 := postClashes_fcRel hrel2
        have hgbt : get_blocks runprm pathKeys debugSpecies true text =
            .ok (postClashes bt2) := by
          rw [get_blocks_eq, hloop_t]
          simp only [Except.bind]
          rw [hpt_t]
          simp only [Except.bind]
          rw [hdbg', hpd_t]
        constructor
        · intro hnone
          rcases hrel3 with ⟨heq, _⟩ | ⟨ls, hsomed, _⟩
          · rw [hgbt, heq]
          · rw [hsomed] at hnone
            cases hnone
        · intro ls hsome
          rcases hrel3 with ⟨_, hnone⟩ | ⟨ls0, hsome0, hbt⟩
          · rw [hsome] at hnone
            cases hnone
          · rw [hsome0] at hsome
            cases hsome
            rw [hgbt, hbt]

set_option maxRecDepth 100000 in
/-- C7 witness: on a cofactor-block log whose wet run yields one retained
line, the dry run prepends the advisory as the first element. -/
theorem C7_dry_advisory_prepended_witness :
    get_blocks stdPrm [] [] true C7text =
      .ok [(S "Free Cofactors",
        BVal.lines (MSG_KEEP_WATS :: [S "Total deleted cofactors: 3."]))] :=
  (C7_dry_advisory_prepended stdPrm [] [] C7text
    [(S "Free Cofactors", BVal.lines [S "Total deleted cofactors: 3."])] (by decide)).2
    [S "Total deleted cofactors: 3."] (by decide)
